import Mathlib

/-!
Verification development for the periodic agent scheduler and
score/transition engine of the task-management backend.

The Python source under `backend/` is shallowly embedded here:

* SQLAlchemy rows become Lean structures; nullable columns become `Option`.
* Timestamps are rationals (seconds since an arbitrary epoch); the value of
  `datetime.utcnow()` at the evaluation instant is passed explicitly as a
  parameter `now`, since the embedding has no ambient clock.
* Python floats carrying scores are modelled as rationals: every arithmetic
  operation performed on them by the source (integer additions and
  subtractions, division by 3600 or 86400, `min`/`max`/`abs`) is exact.
* `timedelta.days` is floor division of the second count by 86400.
* A Python `TypeError` raised mid-cycle is modelled with `Except String` /
  an `Option String` error slot carrying the interpreter's message text.
* The SQLAlchemy session is modelled by threading the whole `Store` value:
  pending mutations live in the threaded value, `db.commit()` makes the
  threaded value the persisted one, and closing an uncommitted session
  discards the threaded value (rollback).
-/

namespace Backend

inductive UserRole where
  | admin
  | manager
  | user
deriving DecidableEq, Repr

inductive TaskStatus where
  | pending
  | in_progress
  | completed
  | overdue
  | escalated
deriving DecidableEq, Repr

inductive TaskPriority where
  | low
  | medium
  | high
  | critical
deriving DecidableEq, Repr

inductive NotificationChannel where
  | email
  | desktop
  | both
deriving DecidableEq, Repr

inductive NotificationStatus where
  | pending
  | sent
  | failed
  | retrying
deriving DecidableEq, Repr

/-- A row of `users`.  Columns never read by the agents (email, password
hash, timestamps) are omitted. -/
structure User where
  id : ℕ
  name : String
  role : UserRole
  is_active : Bool
deriving DecidableEq, Repr

/-- A row of `tasks`.  `dep_ids` is the set of `dependency_id` entries of the
`task_dependencies` association table for this task; the reverse direction
(`dependent_tasks`) is recovered by scanning the store.  `confidence_score`
and `priority_score` have column defaults but are nullable, and the agents
crash on `None` there, so they are `Option`. -/
structure Task where
  id : ℕ
  title : String
  priority : TaskPriority
  status : TaskStatus
  due_date : Option ℚ
  confidence_score : Option ℚ
  priority_score : Option ℚ
  is_escalated : Bool
  escalated_to : Option ℕ
  assigned_to : ℕ
  created_by : ℕ
  created_at : Option ℚ
  updated_at : Option ℚ
  dep_ids : List ℕ
deriving DecidableEq, Repr

/-- A row of `notifications`.  `is_read` and `created_at` are never read or
written by the agents and are omitted. -/
structure Notification where
  id : ℕ
  type : String
  message : String
  channel : NotificationChannel
  status : NotificationStatus
  retry_count : ℕ
  max_retries : ℕ
  scheduled_at : Option ℚ
  sent_at : Option ℚ
  user_id : ℕ
  task_id : Option ℕ
deriving DecidableEq, Repr

/-- A row of `audit_logs`.  The surrogate id and the insertion timestamp are
never read by the agents and are omitted. -/
structure AuditLog where
  action : String
  entity_type : String
  entity_id : Option ℕ
  details : String
  agent_involved : Option String
  user_id : Option ℕ
deriving DecidableEq, Repr

/-- A row of `agent_status` (the per-agent health record). -/
structure AgentStatus where
  agent_name : String
  status : String
  last_run : Option ℚ
  tasks_processed : ℕ
  errors_count : ℕ
  last_error : Option String
deriving DecidableEq, Repr

/-- The shared store.  `next_notification_id` models the store's id
assignment for newly inserted notification rows. -/
structure Store where
  users : List User
  tasks : List Task
  notifications : List Notification
  audit_logs : List AuditLog
  agent_statuses : List AgentStatus
  next_notification_id : ℕ
deriving DecidableEq, Repr

/-- Message of the `TypeError` raised by Python when subtracting a float
from `None` (`abs(old_score - new_score)` with a NULL stored score). -/
def none_minus_float_msg : String :=
  "unsupported operand type(s) for -: \x27NoneType\x27 and \x27float\x27"

/-- Message of the `TypeError` raised when comparing `None` with an int
(`dep.confidence_score < 50` with a NULL dependency confidence). -/
def none_lt_int_msg : String :=
  "\x27<\x27 not supported between instances of \x27NoneType\x27 and \x27int\x27"

/-- Message of the `TypeError` raised when comparing `None` with a float
(`task.confidence_score < self.confidence_escalation_threshold`). -/
def none_lt_float_msg : String :=
  "\x27<\x27 not supported between instances of \x27NoneType\x27 and \x27float\x27"

/-- Due-date urgency contribution of `PlanningAgent.calculate_priority_score`
(step 1 of the source): `time_remaining` is the hour count until the due
date at the evaluation instant. -/
def due_urgency (t : Task) (now : ℚ) : ℚ :=
  match t.due_date with
  | none => 0
  | some due =>
    let time_remaining := (due - now) / 3600
    if time_remaining < 0 then 30
    else if time_remaining < 24 then 25
    else if time_remaining < 48 then 20
    else if time_remaining < 72 then 15
    else if time_remaining < 168 then 10
    else 0

/-- Priority-level contribution (step 2 of the source).  The dictionary
lookup's default of 10 is unreachable: every enum value is a key. -/
def priority_weight (t : Task) : ℚ :=
  match t.priority with
  | .critical => 25
  | .high => 20
  | .medium => 10
  | .low => 5

/-- Dependent-task contribution (step 3 of the source). -/
def dependent_bonus (dependent_count : ℕ) : ℚ :=
  min ((dependent_count : ℚ) * 5) 15

/-- Task-age contribution (step 4 of the source).  `timedelta.days` floors,
so a creation timestamp in the future yields a negative day count. -/
def age_bonus (t : Task) (now : ℚ) : ℚ :=
  match t.created_at with
  | none => 0
  | some created =>
    let age_days : ℤ := ⌊(now - created) / 86400⌋
    ((min age_days 10 : ℤ) : ℚ)

/-- `PlanningAgent.calculate_priority_score`.  The source reads
`len(task.dependent_tasks)` from the ORM; here the count is a parameter
supplied by the caller from the store.  The source reads
`datetime.utcnow()` internally; that instant is the parameter `now`. -/
def calculate_priority_score (t : Task) (dependent_count : ℕ) (now : ℚ) : ℚ :=
  min (50 + due_urgency t now + priority_weight t
        + dependent_bonus dependent_count + age_bonus t now) 100

/-- Time-factor deduction of `RiskAgent.calculate_confidence_score`
(step 1 of the source). -/
def time_risk (t : Task) (now : ℚ) : ℚ :=
  match t.due_date with
  | none => 0
  | some due =>
    let time_remaining := (due - now) / 3600
    if time_remaining < 0 then 40
    else if time_remaining < 8 then 30
    else if time_remaining < 24 then 20
    else if time_remaining < 48 then 10
    else 0

/-- Priority-risk deduction (step 3 of the source). -/
def priority_risk (t : Task) : ℚ :=
  match t.priority with
  | .critical => 10
  | .high => 5
  | _ => 0

/-- Status-factor deduction (step 4 of the source): pending, due within two
days (floored day count), and high or critical priority. -/
def status_risk (t : Task) (now : ℚ) : ℚ :=
  if t.status = TaskStatus.pending then
    match t.due_date with
    | some due =>
      if ⌊(due - now) / 86400⌋ < 2
          ∧ (t.priority = TaskPriority.high ∨ t.priority = TaskPriority.critical) then
        15
      else 0
    | none => 0
  else 0

/-- The dependency loop of `RiskAgent.calculate_confidence_score` (step 2 of
the source): counts incomplete dependencies and accumulates the extra 10
deducted for each incomplete dependency whose own confidence is below 50.
A NULL confidence on an incomplete dependency raises a `TypeError`. -/
def dependency_risk : List Task → Except String (ℕ × ℚ)
  | [] => .ok (0, 0)
  | dep :: rest =>
    if dep.status ≠ TaskStatus.completed then
      match dep.confidence_score with
      | none => .error none_lt_int_msg
      | some c =>
        match dependency_risk rest with
        | .error e => .error e
        | .ok (n, extra) => .ok (n + 1, (if c < 50 then 10 else 0) + extra)
    else dependency_risk rest

/-- `RiskAgent.calculate_confidence_score`.  The source resolves
`task.dependencies` from the session; here the resolved dependency rows are
the parameter `deps`, and the internally read `datetime.utcnow()` is the
parameter `now`. -/
def calculate_confidence_score (t : Task) (deps : List Task) (now : ℚ) :
    Except String ℚ :=
  match dependency_risk deps with
  | .error e => .error e
  | .ok (incomplete_deps, risky_extra) =>
    .ok (max 0 (min 100
      (100 - time_risk t now - risky_extra
        - min ((incomplete_deps : ℚ) * 10) 30
        - priority_risk t - status_risk t now)))

/-- Update the first health record with the given agent name, if any (the
agents query with `.first()` and mutate the result only when present). -/
def update_first_agent (name : String) (f : AgentStatus → AgentStatus) :
    List AgentStatus → List AgentStatus
  | [] => []
  | a :: rest =>
    if a.agent_name == name then f a :: rest
    else a :: update_first_agent name f rest

/-- The `.first()` health-record query used by every agent. -/
def find_agent (name : String) (s : Store) : Option AgentStatus :=
  s.agent_statuses.find? (fun a => a.agent_name == name)

/-- Success path of every agent's `run`: the cycle's session has already
been committed; the health record, when present, gets `last_run = now` and
`tasks_processed += processed` and is committed too. -/
def update_agent_success (name : String) (now : ℚ) (processed : ℕ)
    (s : Store) : Store :=
  let f : AgentStatus → AgentStatus := fun a =>
    { a with last_run := some now,
             tasks_processed := a.tasks_processed + processed }
  { s with agent_statuses := update_first_agent name f s.agent_statuses }

/-- Error path of every agent's `run`: the handler queries the health record
on the same session.  When the record exists it sets `errors_count += 1` and
`last_error` and calls `db.commit()`, which also persists the cycle's
pending (uncommitted) mutations held in the session.  When the record does
not exist nothing is committed, so `db.close()` discards the session and
the persisted store stays as it was before the cycle. -/
def update_agent_error (name : String) (msg : String) (sess orig : Store) :
    Store :=
  let f : AgentStatus → AgentStatus := fun a =>
    { a with errors_count := a.errors_count + 1, last_error := some msg }
  if sess.agent_statuses.any (fun a => a.agent_name == name) then
    { sess with agent_statuses := update_first_agent name f sess.agent_statuses }
  else orig

/-- Sequential id assignment performed by the store when new notification
rows are inserted. -/
def assign_ids (start : ℕ) : List Notification → List Notification
  | [] => []
  | n :: rest => { n with id := start } :: assign_ids (start + 1) rest

/-- Insert freshly created notification rows into the store. -/
def append_notifications (s : Store) (new : List Notification) : Store :=
  { s with notifications := s.notifications ++ assign_ids s.next_notification_id new,
           next_notification_id := s.next_notification_id + new.length }

/-- The `status.in_([PENDING, IN_PROGRESS])` filter used by the planning and
risk agents' task queries. -/
def is_active_task (t : Task) : Bool :=
  t.status == TaskStatus.pending || t.status == TaskStatus.in_progress

/-- `len(task.dependent_tasks)`: the number of tasks that list `t` among
their dependencies.  The per-cycle mutations never touch `id` or the
dependency edges, so the count is read off the cycle's initial task list. -/
def dependent_count (all : List Task) (t : Task) : ℕ :=
  (all.filter (fun u => u.dep_ids.contains t.id)).length

/-- The audit entry the planning agent writes when a priority score rises by
more than 10 points. -/
def mk_planning_audit (t : Task) (old nw : ℚ) : AuditLog :=
  let oldStr := toString old
  let newStr := toString nw
  { action := "priority_increased", entity_type := "task",
    entity_id := some t.id,
    details := s!"Priority score increased from {oldStr} to {newStr}",
    agent_involved := some "PlanningAgent", user_id := none }

/-- One iteration of the planning agent's task loop, for a task whose stored
score is non-NULL: recompute, and update the row plus possibly an audit
entry when the change is material (more than 1 point). -/
def plan_task_step (all : List Task) (now : ℚ) (t : Task) :
    Task × List AuditLog :=
  if is_active_task t then
    match t.priority_score with
    | none => (t, [])
    | some old =>
      let nw := calculate_priority_score t (dependent_count all t) now
      if |old - nw| > 1 then
        ({ t with priority_score := some nw },
         if nw - old > 10 then [mk_planning_audit t old nw] else [])
      else (t, [])
  else (t, [])

/-- The planning agent's task loop.  A NULL stored `priority_score` on an
eligible task raises a `TypeError` at `abs(old_score - new_score)`; the
loop stops there, leaving the earlier iterations' mutations pending in the
session and the remaining tasks untouched. -/
def plan_loop (all : List Task) (now : ℚ) :
    List Task → List Task × List AuditLog × Option String
  | [] => ([], [], none)
  | t :: rest =>
    if is_active_task t && t.priority_score.isNone then
      (t :: rest, [], some none_minus_float_msg)
    else
      let (t', audits) := plan_task_step all now t
      let (rest', more, err) := plan_loop all now rest
      (t' :: rest', audits ++ more, err)

/-- `PlanningAgent.run`. -/
def planning_agent_run (now : ℚ) (s : Store) : Store :=
  let (tasks', audits, err) := plan_loop s.tasks now s.tasks
  let sess : Store := { s with tasks := tasks', audit_logs := s.audit_logs ++ audits }
  match err with
  | none =>
    update_agent_success "PlanningAgent" now
      (s.tasks.filter is_active_task).length sess
  | some msg => update_agent_error "PlanningAgent" msg sess s

/-- `self.low_confidence_threshold` of the risk agent. -/
def low_confidence_threshold : ℚ := 40

/-- `task.dependencies`: the rows of the current session whose id appears in
the task's dependency edges. -/
def resolve_dependencies (curr : List Task) (t : Task) : List Task :=
  curr.filter (fun d => t.dep_ids.contains d.id)

/-- The audit entry the risk agent writes when a task newly drops below the
low-confidence threshold. -/
def mk_risk_audit (t : Task) (nw : ℚ) : AuditLog :=
  let title := t.title
  let nwStr := toString nw
  { action := "high_risk_detected", entity_type := "task",
    entity_id := some t.id,
    details := s!"Task \x27{title}\x27 dropped to high-risk status. Confidence: {nwStr}%",
    agent_involved := some "RiskAgent", user_id := none }

/-- The alert notification the risk agent creates for the assignee when a
task newly drops below the low-confidence threshold. -/
def mk_risk_notification (t : Task) (nw : ℚ) : Notification :=
  let title := t.title
  let nwStr := toString nw
  { id := 0, type := "alert",
    message := s!"⚠️ Task \x27{title}\x27 has been flagged as HIGH RISK (Confidence: {nwStr}%)",
    channel := NotificationChannel.desktop, status := NotificationStatus.pending,
    retry_count := 0, max_retries := 3, scheduled_at := none, sent_at := none,
    user_id := t.assigned_to, task_id := some t.id }

/-- The risk agent's task loop.  `acc` holds the already-visited prefix in
reverse; dependencies are resolved against the current session view (the
visited prefix carries this cycle's confidence updates).  Errors: a NULL
confidence on an incomplete dependency raises inside the score computation,
and a NULL stored `confidence_score` raises at `abs(old_score - new_score)`. -/
def risk_loop (now : ℚ) :
    List Task → List Task →
    List Task × List Notification × List AuditLog × Option String
  | acc, [] => (acc.reverse, [], [], none)
  | acc, t :: rest =>
    if is_active_task t then
      let curr := acc.reverse ++ t :: rest
      match calculate_confidence_score t (resolve_dependencies curr t) now with
      | .error e => (acc.reverse ++ t :: rest, [], [], some e)
      | .ok nw =>
        match t.confidence_score with
        | none => (acc.reverse ++ t :: rest, [], [], some none_minus_float_msg)
        | some old =>
          if |old - nw| > 2 then
            let t' := { t with confidence_score := some nw }
            let emitted :=
              if nw < low_confidence_threshold ∧ old ≥ low_confidence_threshold then
                ([mk_risk_notification t nw], [mk_risk_audit t nw])
              else ([], [])
            let (rest', ns, more, err) := risk_loop now (t' :: acc) rest
            (rest', emitted.1 ++ ns, emitted.2 ++ more, err)
          else
            let (rest', ns, more, err) := risk_loop now (t :: acc) rest
            (rest', ns, more, err)
    else
      let (rest', ns, more, err) := risk_loop now (t :: acc) rest
      (rest', ns, more, err)

/-- `RiskAgent.run`. -/
def risk_agent_run (now : ℚ) (s : Store) : Store :=
  let (tasks', notifs, audits, err) := risk_loop now [] s.tasks
  let sess : Store :=
    append_notifications
      { s with tasks := tasks', audit_logs := s.audit_logs ++ audits } notifs
  match err with
  | none =>
    update_agent_success "RiskAgent" now
      (s.tasks.filter is_active_task).length sess
  | some msg => update_agent_error "RiskAgent" msg sess s

/-- `self.escalation_threshold_hours` of the escalation agent. -/
def escalation_threshold_hours : ℚ := 0

/-- `self.confidence_escalation_threshold` of the escalation agent. -/
def confidence_escalation_threshold : ℚ := 30

/-- `EscalationAgent.should_escalate`: `(should, reason)`, with the three
trigger conditions checked in source order.  A NULL `confidence_score`
raises a `TypeError` at the threshold comparison (reached only when the
overdue check did not fire). -/
def should_escalate (t : Task) (now : ℚ) :
    Except String (Bool × Option String) :=
  if t.is_escalated then .ok (false, none)
  else if t.status = TaskStatus.completed then .ok (false, none)
  else
    let overdue_hit : Option (Bool × Option String) :=
      match t.due_date with
      | some due =>
        if due < now then
          let hours_overdue := (now - due) / 3600
          if hours_overdue > escalation_threshold_hours then
            let hStr := toString hours_overdue
            some (true, some s!"Overdue by {hStr} hours")
          else none
        else none
      | none => none
    match overdue_hit with
    | some r => .ok r
    | none =>
      match t.confidence_score with
      | none => .error none_lt_float_msg
      | some c =>
        if c < confidence_escalation_threshold then
          let cStr := toString c
          .ok (true, some s!"Critically low confidence score ({cStr}%)")
        else if t.status = TaskStatus.in_progress then
          match t.updated_at with
          | some u =>
            let days_since_update : ℤ := ⌊(now - u) / 86400⌋
            if days_since_update ≥ 3 then
              let dStr := toString days_since_update
              .ok (true, some s!"No progress for {dStr} days")
            else .ok (false, none)
          | none => .ok (false, none)
        else .ok (false, none)

/-- `EscalationAgent.find_manager_to_escalate_to`: first active manager,
else first active admin. -/
def find_manager_to_escalate_to (users : List User) : Option User :=
  match users.find? (fun u => u.role == UserRole.manager && u.is_active) with
  | some m => some m
  | none => users.find? (fun u => u.role == UserRole.admin && u.is_active)

/-- The notifications created by `EscalationAgent.escalate_task`: one for
the manager, and one for the assignee when the assignee is not the
manager. -/
def mk_escalation_notifications (t : Task) (reason : String) (m : User) :
    List Notification :=
  let title := t.title
  let mname := m.name
  let manager_notification : Notification :=
    { id := 0, type := "escalation",
      message := s!"🚨 ESCALATED: Task \x27{title}\x27 requires attention. Reason: {reason}",
      channel := NotificationChannel.both, status := NotificationStatus.pending,
      retry_count := 0, max_retries := 3, scheduled_at := none, sent_at := none,
      user_id := m.id, task_id := some t.id }
  let assignee_notification : Notification :=
    { id := 0, type := "escalation",
      message := s!"📢 Your task \x27{title}\x27 has been escalated to {mname}. Reason: {reason}",
      channel := NotificationChannel.desktop, status := NotificationStatus.pending,
      retry_count := 0, max_retries := 3, scheduled_at := none, sent_at := none,
      user_id := t.assigned_to, task_id := some t.id }
  manager_notification ::
    (if t.assigned_to ≠ m.id then [assignee_notification] else [])

/-- The audit entry written by `EscalationAgent.escalate_task`. -/
def mk_escalation_audit (t : Task) (reason : String) (m : User) : AuditLog :=
  let mname := m.name
  { action := "task_escalated", entity_type := "task", entity_id := some t.id,
    details := s!"Task escalated to {mname}. Reason: {reason}",
    agent_involved := some "EscalationAgent", user_id := none }

/-- `EscalationAgent.escalate_task`: flip the task into the escalated state
and produce the notifications and the audit entry. -/
def escalate_task (t : Task) (reason : String) (m : User) :
    Task × List Notification × AuditLog :=
  ({ t with is_escalated := true, escalated_to := some m.id,
            status := TaskStatus.escalated },
   mk_escalation_notifications t reason m,
   mk_escalation_audit t reason m)

/-- The `is_escalated == False, status.in_([PENDING, IN_PROGRESS, OVERDUE])`
filter of the escalation agent's task query. -/
def escalation_eligible (t : Task) : Bool :=
  !t.is_escalated &&
    (t.status == TaskStatus.pending || t.status == TaskStatus.in_progress
      || t.status == TaskStatus.overdue)

/-- The escalation agent's task loop.  An exception inside
`should_escalate` stops the loop, leaving earlier escalations pending in
the session. -/
def escalation_loop (users : List User) (now : ℚ) :
    List Task → List Task × List Notification × List AuditLog × Option String
  | [] => ([], [], [], none)
  | t :: rest =>
    if escalation_eligible t then
      match should_escalate t now with
      | .error e => (t :: rest, [], [], some e)
      | .ok (cond, reason) =>
        if cond then
          match find_manager_to_escalate_to users with
          | some m =>
            let (t', ns, a) := escalate_task t (reason.getD "") m
            let (rest', ns', more, err) := escalation_loop users now rest
            (t' :: rest', ns ++ ns', a :: more, err)
          | none =>
            let (rest', ns', more, err) := escalation_loop users now rest
            (t :: rest', ns', more, err)
        else
          let (rest', ns', more, err) := escalation_loop users now rest
          (t :: rest', ns', more, err)
    else
      let (rest', ns', more, err) := escalation_loop users now rest
      (t :: rest', ns', more, err)

/-- `EscalationAgent.run`. -/
def escalation_agent_run (now : ℚ) (s : Store) : Store :=
  let (tasks', notifs, audits, err) := escalation_loop s.users now s.tasks
  let sess : Store :=
    append_notifications
      { s with tasks := tasks', audit_logs := s.audit_logs ++ audits } notifs
  match err with
  | none =>
    update_agent_success "EscalationAgent" now
      (s.tasks.filter escalation_eligible).length sess
  | some msg => update_agent_error "EscalationAgent" msg sess s

/-- Substring test on character lists (the semantics of SQL
`column.contains(pattern)`, i.e. `LIKE %pattern%`). -/
def contains_sub : List Char → List Char → Bool
  | pat, [] => pat.isEmpty
  | pat, c :: rest => pat.isPrefixOf (c :: rest) || contains_sub pat rest

/-- Substring test on strings. -/
def str_contains (s pat : String) : Bool := contains_sub pat.data s.data

/-- `self.reminder_hours` of the notification agent. -/
def reminder_hours : List ℕ := [24, 8, 2]

/-- The pattern `f"{hours_before} hour"` used by the reminder dedup query. -/
def reminder_pattern (hours_before : ℕ) : String :=
  toString hours_before ++ " hour"

/-- The urgency tag of a reminder message (the 1-hour branch is dead code:
the configured offsets are 24, 8 and 2). -/
def reminder_urgency (hours_before : ℕ) : String :=
  if hours_before == 1 then "🔴 URGENT"
  else if hours_before ≤ 8 then "🟡 WARNING"
  else "🔔 REMINDER"

/-- The dedup filter of `create_reminder`: same task, type reminder, and
message containing `"{hours_before} hour"` (SQL `LIKE %...%`). -/
def reminder_dup (t : Task) (hours_before : ℕ) (n : Notification) : Bool :=
  n.task_id == some t.id && n.type == "reminder"
    && str_contains n.message (reminder_pattern hours_before)

/-- The reminder notification row built by `create_reminder` (id assigned
by the store on insert). -/
def reminder_record (t : Task) (due : ℚ) (hours_before : ℕ) : Notification :=
  { id := 0, type := "reminder",
    message := reminder_urgency hours_before ++ ": Task \x27" ++ t.title
                 ++ "\x27 is due in " ++ toString hours_before ++ " hours!",
    channel := NotificationChannel.desktop,
    status := NotificationStatus.pending,
    retry_count := 0, max_retries := 3,
    scheduled_at := some (due - (hours_before : ℚ) * 3600),
    sent_at := none, user_id := t.assigned_to, task_id := some t.id }

/-- `NotificationAgent.create_reminder`: `none` when a reminder notification
for this task whose message contains `"{hours_before} hour"` already exists
in the session.  `due` is the task's due date, non-NULL at the only call
site. -/
def create_reminder (t : Task) (due : ℚ) (hours_before : ℕ)
    (existing : List Notification) : Option Notification :=
  if existing.any (reminder_dup t hours_before) then none
  else some (reminder_record t due hours_before)

/-- The lookahead window width in hours: `max(self.reminder_hours) + 1`. -/
def reminder_window_hours : ℕ := reminder_hours.foldl Nat.max 0 + 1

/-- The inner offset loop of `schedule_upcoming_reminders` for one task
(`for reminder_hour in self.reminder_hours`): for each offset, a reminder
is created only when the hours until due lie in `(offset - 1, offset]`, and
insertion happens immediately (so later dedup queries in the same pass see
it). -/
def schedule_offsets (t : Task) (due now : ℚ) :
    List ℕ → Store × ℕ → Store × ℕ
  | [], acc => acc
  | h :: rest, acc =>
    let hours_until_due := (due - now) / 3600
    if hours_until_due ≤ (h : ℚ) ∧ hours_until_due > (h : ℚ) - 1 then
      match create_reminder t due h acc.1.notifications with
      | some n =>
        schedule_offsets t due now rest (append_notifications acc.1 [n], acc.2 + 1)
      | none => schedule_offsets t due now rest acc
    else schedule_offsets t due now rest acc

/-- The offset loop run over the configured reminder offsets. -/
def schedule_task_reminders (t : Task) (due now : ℚ) (acc : Store × ℕ) :
    Store × ℕ :=
  schedule_offsets t due now reminder_hours acc

/-- The outer task loop of `schedule_upcoming_reminders`. -/
def schedule_tasks (now : ℚ) : List Task → Store × ℕ → Store × ℕ
  | [], acc => acc
  | t :: rest, acc =>
    match t.due_date with
    | some due => schedule_tasks now rest (schedule_task_reminders t due now acc)
    | none => schedule_tasks now rest acc

/-- The `status.in_([PENDING, IN_PROGRESS]), due_date > now,
due_date <= reminder_window` filter of the reminder-scheduling task
query. -/
def reminder_query (now : ℚ) (t : Task) : Bool :=
  is_active_task t &&
    match t.due_date with
    | some d =>
      decide (now < d)
        && decide (d ≤ now + (reminder_window_hours : ℚ) * 3600)
    | none => false

/-- `NotificationAgent.schedule_upcoming_reminders`: tasks that are pending
or in progress and strictly due after now but within the lookahead window.
Returns the updated session and `created_count`. -/
def schedule_upcoming_reminders (now : ℚ) (s : Store) : Store × ℕ :=
  schedule_tasks now (s.tasks.filter (reminder_query now)) (s, 0)

/-- The `status == PENDING, scheduled_at <= now` filter of
`process_scheduled_notifications` (a NULL `scheduled_at` never satisfies
the SQL comparison). -/
def due_pending (now : ℚ) (n : Notification) : Bool :=
  n.status == NotificationStatus.pending &&
    match n.scheduled_at with
    | some ts => decide (ts ≤ now)
    | none => false

/-- The per-notification body of `process_scheduled_notifications`: the
"send" is simulated by plain attribute assignments, which cannot fail, so
the notification always transitions to sent. -/
def send_notification_step (now : ℚ) (n : Notification) : Notification :=
  if due_pending now n then
    { n with status := NotificationStatus.sent, sent_at := some now }
  else n

/-- `NotificationAgent.process_scheduled_notifications`: returns the updated
session and `sent_count`. -/
def process_scheduled_notifications (now : ℚ) (s : Store) : Store × ℕ :=
  ({ s with notifications := s.notifications.map (send_notification_step now) },
   (s.notifications.filter (due_pending now)).length)

/-- The `status == FAILED, retry_count < max_retries` filter of
`retry_failed_notifications`. -/
def retry_selected (n : Notification) : Bool :=
  n.status == NotificationStatus.failed
    && decide (n.retry_count < n.max_retries)

/-- The per-notification body of `retry_failed_notifications`: status passes
through retrying and, since the simulated resend is plain assignments and
cannot fail, always ends at sent. -/
def retry_notification_step (now : ℚ) (n : Notification) : Notification :=
  if retry_selected n then
    { n with status := NotificationStatus.sent, sent_at := some now }
  else n

/-- The audit entry recorded for each successful retry. -/
def mk_retry_audit (n : Notification) : AuditLog :=
  let rStr := toString n.retry_count
  { action := "notification_retry_success", entity_type := "notification",
    entity_id := some n.id,
    details := s!"Notification sent after {rStr} retries",
    agent_involved := some "NotificationAgent", user_id := none }

/-- `NotificationAgent.retry_failed_notifications`: returns the updated
session and `retry_count` (the number retried this pass). -/
def retry_failed_notifications (now : ℚ) (s : Store) : Store × ℕ :=
  let selected := s.notifications.filter retry_selected
  ({ s with notifications := s.notifications.map (retry_notification_step now),
            audit_logs := s.audit_logs ++ selected.map mk_retry_audit },
   selected.length)

/-- `NotificationAgent.run`: the three phases in order; the body performs no
fallible operation, so only the success path of the error handler is
reachable. -/
def notification_agent_run (now : ℚ) (s : Store) : Store :=
  let (s1, _scheduled) := schedule_upcoming_reminders now s
  let (s2, sent) := process_scheduled_notifications now s1
  let (s3, retried) := retry_failed_notifications now s2
  update_agent_success "NotificationAgent" now (sent + retried) s3

/-- Spec-side count of incomplete dependencies ("incompleteDependencyCount"
in the spec's wording). -/
def spec_incomplete_count (deps : List Task) : ℕ :=
  (deps.filter (fun d => !(d.status == TaskStatus.completed))).length

/-- Spec-side count of incomplete dependencies whose own confidence is
below 50 ("risky" dependencies in the spec's wording). -/
def spec_risky_count (deps : List Task) : ℕ :=
  (deps.filter (fun d =>
    !(d.status == TaskStatus.completed) &&
      match d.confidence_score with
      | some c => decide (c < 50)
      | none => false)).length

/-- The dependency deduction as the spec words it: the count-based penalty
`min(incompleteDependencyCount * 10, 30)` plus an uncapped additional 10
for each risky incomplete dependency.  The two parts stack, so the total
may exceed 30. -/
def spec_dependency_deduction (deps : List Task) : ℚ :=
  min ((spec_incomplete_count deps : ℚ) * 10) 30
    + 10 * (spec_risky_count deps : ℚ)

/-- The whole confidence computation re-stated with the spec's dependency
deduction, for comparison with the code's loop. -/
def spec_confidence_formula (t : Task) (deps : List Task) (now : ℚ) : ℚ :=
  max 0 (min 100
    (100 - time_risk t now - spec_dependency_deduction deps
      - priority_risk t - status_risk t now))

/-- Shorthand for a task whose untouched fields are defaults; concrete
inputs below override what they need. -/
def base_task : Task :=
  { id := 1, title := "T", priority := TaskPriority.medium,
    status := TaskStatus.pending, due_date := none,
    confidence_score := some 100, priority_score := some 50,
    is_escalated := false, escalated_to := none, assigned_to := 1,
    created_by := 1, created_at := none, updated_at := none, dep_ids := [] }

/-- An empty store to override. -/
def base_store : Store :=
  { users := [], tasks := [], notifications := [], audit_logs := [],
    agent_statuses := [], next_notification_id := 0 }

/-- Input for the C6 counterexample: due 10 hours after the epoch. -/
def c6_task : Task := { base_task with due_date := some 36000 }

/-- Inputs for the C6 witness: two tasks agreeing on every scoring input
but differing elsewhere (title, stored scores). -/
def c6_task_a : Task :=
  { base_task with title := "A", due_date := some 36000,
                   priority := TaskPriority.high, priority_score := some 10 }

/-- Second task of the C6 witness pair. -/
def c6_task_b : Task :=
  { base_task with title := "B", due_date := some 36000,
                   priority := TaskPriority.high, priority_score := some 90 }

/-- Task input for the C7 witness. -/
def c7_task : Task := base_task

/-- Dependencies for the C7 witness: four incomplete dependencies, each
with confidence below 50, so the count penalty caps at 30 while the risky
penalty adds an uncapped 40. -/
def c7_deps : List Task :=
  [ { base_task with id := 11, confidence_score := some 10 },
    { base_task with id := 12, confidence_score := some 10 },
    { base_task with id := 13, confidence_score := some 10 },
    { base_task with id := 14, confidence_score := some 10 } ]

/-- Input for the C8 counterexample: no due date, low priority, created 100
days after the evaluation instant, so the age term is -100 and the final
score is 50 + 0 + 5 + 0 - 100 = -45. -/
def c8_task : Task :=
  { base_task with priority := TaskPriority.low, created_at := some 8640000 }

/-- Input for the C8 witness. -/
def c8w_task : Task := { base_task with created_at := some (-86400) }

/-- Input for the C9 counterexample: a pending critical task, five hours
overdue, with stored confidence 80.  Recomputation gives
100 - 40 - 10 - 15 = 35, a material drop below the threshold 40 from a
previous value above it, so the risk cycle emits an alert notification. -/
def c9_task : Task :=
  { base_task with priority := TaskPriority.critical,
                   due_date := some (-18000), confidence_score := some 80 }

/-- Store for the C9 counterexample. -/
def c9_store : Store := { base_store with tasks := [c9_task] }

/-- First task of the C1 stores: active, due in one hour, high priority,
so its recomputed score 95 differs materially from the stored 50 and the
cycle mutates it before hitting the failing task. -/
def c1_good_task : Task :=
  { base_task with priority := TaskPriority.high, due_date := some 3600 }

/-- Second task of the C1 stores: active with a NULL stored priority score,
so the cycle raises a `TypeError` at `abs(old_score - new_score)`. -/
def c1_bad_task : Task := { base_task with id := 2, priority_score := none }

/-- The planning agent's health record for the C1 stores. -/
def c1_health : AgentStatus :=
  { agent_name := "PlanningAgent", status := "running", last_run := none,
    tasks_processed := 0, errors_count := 0, last_error := none }

/-- Store for the C1 counterexample and witness. -/
def c1_store : Store :=
  { base_store with tasks := [c1_good_task, c1_bad_task],
                    agent_statuses := [c1_health] }

/-- The C1 store without any health record: on the error the handler finds
no record, commits nothing, and the session is rolled back on close. -/
def c1_norec_store : Store := { c1_store with agent_statuses := [] }

/-- An active task with a NULL stored confidence score: the risk cycle
raises at `abs(old_score - new_score)` and the escalation cycle raises at
the threshold comparison in `should_escalate`. -/
def c1_conf_null_task : Task := { base_task with confidence_score := none }

/-- The risk agent's health record for the C1 witness. -/
def c1r_health : AgentStatus := { c1_health with agent_name := "RiskAgent" }

/-- Store on which the risk cycle fails. -/
def c1r_store : Store :=
  { base_store with tasks := [c1_conf_null_task],
                    agent_statuses := [c1r_health] }

/-- The escalation agent's health record for the C1 witness. -/
def c1e_health : AgentStatus :=
  { c1_health with agent_name := "EscalationAgent" }

/-- Store on which the escalation cycle fails. -/
def c1e_store : Store :=
  { base_store with tasks := [c1_conf_null_task],
                    agent_statuses := [c1e_health] }

/-- The task of the C2 witness: in progress, not escalated, due five hours
before the evaluation instant, confidence 80, assigned to user 1. -/
def c2_task : Task :=
  { base_task with status := TaskStatus.in_progress,
                   due_date := some (-18000), confidence_score := some 80 }

/-- The active manager of the C2 witness. -/
def c2_manager : User :=
  { id := 5, name := "M", role := UserRole.manager, is_active := true }

/-- Store for the C2 witness. -/
def c2_store : Store :=
  { base_store with users := [c2_manager], tasks := [c2_task] }

/-- The escalated task of the C4 witness. -/
def c4_task : Task :=
  { base_task with status := TaskStatus.escalated, is_escalated := true,
                   escalated_to := some 5 }

/-- Store for the C4 witness: the escalated task next to an active one. -/
def c4_store : Store :=
  { base_store with users := [c2_manager],
                    tasks := [c4_task, { base_task with id := 3 }] }

/-- Task for the C5 counterexample: pending and due five hours after the
evaluation instant, hence inside the lookahead window, with no reminder
offset bucket matching (5 is in none of (23,24], (7,8], (1,2]). -/
def c5_task : Task := { base_task with due_date := some 18000 }

/-- Store for the C5 counterexample. -/
def c5_store : Store := { base_store with tasks := [c5_task] }

/-- Task for the C5 witness: pending and due 23.5 hours after the
evaluation instant, matching the 24-hour offset bucket (23, 24]. -/
def c5w_task : Task := { base_task with due_date := some 84600 }

/-- Store for the C5 witness. -/
def c5w_store : Store := { base_store with tasks := [c5w_task] }

/-- A failed notification that exhausted its retries (the terminal state of
the C3 witness). -/
def c3_capped_notification : Notification :=
  { id := 1, type := "escalation", message := "m",
    channel := NotificationChannel.desktop,
    status := NotificationStatus.failed, retry_count := 3, max_retries := 3,
    scheduled_at := none, sent_at := none, user_id := 1, task_id := none }

/-- Store for the C3 witness. -/
def c3_store : Store :=
  { base_store with notifications := [c3_capped_notification] }

/-- A pending notification scheduled before the evaluation instant (C10
witness). -/
def c10_pending_notification : Notification :=
  { id := 1, type := "reminder", message := "m",
    channel := NotificationChannel.desktop,
    status := NotificationStatus.pending, retry_count := 0, max_retries := 3,
    scheduled_at := some (-10), sent_at := none, user_id := 1, task_id := none }

/-- A failed notification with retries left (C10 witness). -/
def c10_failed_notification : Notification :=
  { id := 2, type := "escalation", message := "m",
    channel := NotificationChannel.desktop,
    status := NotificationStatus.failed, retry_count := 1, max_retries := 3,
    scheduled_at := none, sent_at := none, user_id := 1, task_id := none }

/-- Store for the C10 witness. -/
def c10_store : Store :=
  { base_store with
      notifications := [c10_pending_notification, c10_failed_notification] }

theorem due_urgency_nonneg (t : Task) (now : ℚ) : 0 ≤ due_urgency t now := by
  unfold due_urgency
  split
  · norm_num
  · dsimp only
    split_ifs <;> norm_num

theorem priority_weight_ge (t : Task) : 5 ≤ priority_weight t := by
  unfold priority_weight
  cases t.priority <;> norm_num

theorem dependent_bonus_nonneg (c : ℕ) : 0 ≤ dependent_bonus c := by
  unfold dependent_bonus
  have h1 : (0 : ℚ) ≤ (c : ℚ) * 5 := by positivity
  exact le_min h1 (by norm_num)

theorem age_bonus_nonneg (t : Task) (now : ℚ)
    (h : ∀ created ∈ t.created_at, created ≤ now) : 0 ≤ age_bonus t now := by
  unfold age_bonus
  cases hca : t.created_at with
  | none => norm_num
  | some created =>
    have hc : created ≤ now := h created (by simp [hca])
    have hq : (0 : ℚ) ≤ (now - created) / 86400 := by
      have : (0 : ℚ) ≤ now - created := by linarith
      positivity
    have hfl : (0 : ℤ) ≤ ⌊(now - created) / 86400⌋ := Int.floor_nonneg.mpr hq
    have hmin : (0 : ℤ) ≤ min ⌊(now - created) / 86400⌋ 10 :=
      le_min hfl (by norm_num)
    dsimp only
    exact_mod_cast hmin

/-- Claim C8 (amended): the upper bound 100 holds for the priority score on
every input, and the lower bound 0 holds whenever the task's creation
timestamp does not lie in the future of the evaluation instant (a future
`created_at` makes the age term negative and unbounded below, since the
source caps the score only from above); the confidence score is clamped to
[0,100] on every input on which it returns at all. -/
theorem C8_amended (t : Task) (c : ℕ) (deps : List Task) (now : ℚ) :
    calculate_priority_score t c now ≤ 100 ∧
    ((∀ created ∈ t.created_at, created ≤ now) →
      0 ≤ calculate_priority_score t c now) ∧
    (∀ v, calculate_confidence_score t deps now = .ok v →
      0 ≤ v ∧ v ≤ 100) := by
  refine ⟨min_le_right _ _, ?_, ?_⟩
  · intro h
    have h1 := due_urgency_nonneg t now
    have h2 := priority_weight_ge t
    have h3 := dependent_bonus_nonneg c
    have h4 := age_bonus_nonneg t now h
    unfold calculate_priority_score
    have hS : (0 : ℚ) ≤ 50 + due_urgency t now + priority_weight t
        + dependent_bonus c + age_bonus t now := by linarith
    exact le_min hS (by norm_num)
  · intro v hv
    unfold calculate_confidence_score at hv
    cases hdr : dependency_risk deps with
    | error e => rw [hdr] at hv; simp at hv
    | ok p =>
      rw [hdr] at hv
      simp only [Except.ok.injEq] at hv
      subst hv
      constructor
      · exact le_max_left _ _
      · exact max_le (by norm_num) (min_le_left _ _)

/-- Claim C8 witness: the amended bounds instantiated at a concrete task
created one day before the evaluation instant. -/
theorem C8_witness :
    calculate_priority_score c8w_task 0 0 ≤ 100 ∧
    0 ≤ calculate_priority_score c8w_task 0 0 ∧
    (0 : ℚ) ≤ 100 ∧ (100 : ℚ) ≤ 100 := by
  have h := C8_amended c8w_task 0 [] 0
  have hconf : calculate_confidence_score c8w_task [] 0 = .ok 100 := by
    norm_num [calculate_confidence_score, dependency_risk, time_risk,
      priority_risk, status_risk, c8w_task, base_task]
  have hca : ∀ created ∈ c8w_task.created_at, created ≤ (0 : ℚ) := by
    intro created hc
    simp only [c8w_task, base_task, Option.mem_def, Option.some.injEq] at hc
    rw [← hc]
    norm_num
  have h3 := h.2.2 100 hconf
  exact ⟨h.1, h.2.1 hca, h3.1, h3.2⟩

/-- Claim C8 counterexample: for a task created 100 days after the
evaluation instant (no due date, low priority, no dependents) the priority
score is 50 + 5 - 100 = -45, outside [0,100], refuting the claim that both
scores lie in [0,100] for every input combination. -/
theorem C8_counterexample : calculate_priority_score c8_task 0 0 < 0 := by
  norm_num [calculate_priority_score, due_urgency, priority_weight,
    dependent_bonus, age_bonus, c8_task, base_task]

/-- Claim C6 (amended): for a fixed evaluation instant both scoring
computations are pure functions of the listed task attributes — two tasks
agreeing on due date, priority level, creation timestamp and status (and
the same dependent count, dependency snapshot and instant) receive
identical scores.  However the source functions take no time parameter:
they read `datetime.utcnow()` internally, so the instant is not an input
the caller can fix (see the counterexample for the resulting dependence). -/
theorem C6_amended (t₁ t₂ : Task) (c : ℕ) (deps : List Task) (now : ℚ)
    (hdue : t₁.due_date = t₂.due_date) (hpr : t₁.priority = t₂.priority)
    (hca : t₁.created_at = t₂.created_at) (hst : t₁.status = t₂.status) :
    calculate_priority_score t₁ c now = calculate_priority_score t₂ c now ∧
    calculate_confidence_score t₁ deps now
      = calculate_confidence_score t₂ deps now := by
  constructor
  · unfold calculate_priority_score due_urgency priority_weight age_bonus
    rw [hdue, hpr, hca]
  · unfold calculate_confidence_score time_risk priority_risk status_risk
    rw [hdue, hpr, hst]

/-- Claim C6 witness: two concrete tasks differing in title and stored
scores but agreeing on the scoring inputs receive identical scores. -/
theorem C6_witness :
    calculate_priority_score c6_task_a 0 0 = calculate_priority_score c6_task_b 0 0 ∧
    calculate_confidence_score c6_task_a [] 0 = calculate_confidence_score c6_task_b [] 0 :=
  C6_amended c6_task_a c6_task_b 0 [] 0 rfl rfl rfl rfl

/-- Claim C6 counterexample: the same task evaluated at two different
instants of the internally read clock receives different priority scores
(due in 10 hours vs. 10 hours overdue), so the score is not a function of
the task attributes alone: the claim's assertion that time is supplied as
an explicit input rather than read internally is false of the source,
whose scoring methods take only the task. -/
theorem C6_counterexample :
    calculate_priority_score c6_task 0 0 ≠ calculate_priority_score c6_task 0 72000 := by
  norm_num [calculate_priority_score, due_urgency, priority_weight,
    dependent_bonus, age_bonus, c6_task, base_task]

theorem dependency_risk_ok (deps : List Task)
    (h : ∀ d ∈ deps, d.status ≠ TaskStatus.completed → d.confidence_score.isSome) :
    dependency_risk deps =
      .ok (spec_incomplete_count deps, 10 * (spec_risky_count deps : ℚ)) := by
  induction deps with
  | nil => simp [dependency_risk, spec_incomplete_count, spec_risky_count]
  | cons d rest ih =>
    have hrest : ∀ x ∈ rest, x.status ≠ TaskStatus.completed → x.confidence_score.isSome :=
      fun x hx => h x (List.mem_cons_of_mem _ hx)
    by_cases hc : d.status = TaskStatus.completed
    · simp [dependency_risk, hc, spec_incomplete_count, spec_risky_count, ih hrest]
    · have hsome := h d (List.mem_cons_self _ _) hc
      obtain ⟨cv, hcs⟩ := Option.isSome_iff_exists.mp hsome
      by_cases h50 : cv < 50
      · simp [dependency_risk, hc, hcs, ih hrest, spec_incomplete_count,
          spec_risky_count, h50]
        ring
      · simp [dependency_risk, hc, hcs, ih hrest, spec_incomplete_count,
          spec_risky_count, h50]

/-- Claim C7: on any dependency snapshot on which the computation returns
(every incomplete dependency carries a confidence value), the confidence
score equals the spec's formula, in which the count-based penalty is
`min(incompleteDependencyCount * 10, 30)` while the risky-dependency
penalty adds an uncapped 10 per incomplete dependency with confidence
below 50 — the two stack, so the total dependency deduction can exceed
30 (the witness exhibits a deduction of 70). -/
theorem C7_theorem (t : Task) (deps : List Task) (now : ℚ)
    (h : ∀ d ∈ deps, d.status ≠ TaskStatus.completed → d.confidence_score.isSome) :
    calculate_confidence_score t deps now = .ok (spec_confidence_formula t deps now) := by
  unfold calculate_confidence_score
  rw [dependency_risk_ok deps h]
  unfold spec_confidence_formula spec_dependency_deduction
  ring_nf

/-- Claim C7 witness: four incomplete dependencies each with confidence 10
give the capped count penalty 30 plus the uncapped risky penalty 40 —
a total dependency deduction of 70 > 30, and the score 100 - 70 = 30. -/
theorem C7_witness :
    calculate_confidence_score c7_task c7_deps 0
      = .ok (spec_confidence_formula c7_task c7_deps 0) ∧
    spec_dependency_deduction c7_deps = 70 ∧
    spec_confidence_formula c7_task c7_deps 0 = 30 := by
  refine ⟨C7_theorem c7_task c7_deps 0 ?_, ?_, ?_⟩
  · intro d hd
    fin_cases hd <;> simp [base_task]
  · simp [spec_dependency_deduction, spec_incomplete_count,
      spec_risky_count, c7_deps, base_task, List.filter_cons, List.filter_nil]
    norm_num
  · simp [spec_confidence_formula, spec_dependency_deduction,
      spec_incomplete_count, spec_risky_count, time_risk, priority_risk,
      status_risk, c7_task, c7_deps, base_task, List.filter_cons,
      List.filter_nil]
    norm_num

theorem assign_ids_fields (k : ℕ) (l : List Notification) :
    ∀ n ∈ assign_ids k l, ∃ m ∈ l, n.type = m.type ∧ n.task_id = m.task_id := by
  induction l generalizing k with
  | nil => intro n hn; simp [assign_ids] at hn
  | cons m tl ih =>
    intro n hn
    simp only [assign_ids, List.mem_cons] at hn
    rcases hn with hn | hn
    · exact ⟨m, List.mem_cons_self _ _, by simp [hn]⟩
    · obtain ⟨m', hm', h1, h2⟩ := ih (k + 1) n hn
      exact ⟨m', List.mem_cons_of_mem _ hm', h1, h2⟩

theorem assign_ids_length (k : ℕ) (l : List Notification) :
    (assign_ids k l).length = l.length := by
  induction l generalizing k with
  | nil => rfl
  | cons m tl ih => simp [assign_ids, ih]

theorem risk_loop_alerts (now : ℚ) (rest : List Task) :
    ∀ acc, ∀ n ∈ (risk_loop now acc rest).2.1, n.type = "alert" := by
  induction rest with
  | nil => intro acc n hn; simp [risk_loop] at hn
  | cons t rest ih =>
    intro acc n hn
    rw [risk_loop] at hn
    by_cases hact : is_active_task t
    · simp only [hact, if_true] at hn
      cases hcalc : calculate_confidence_score t
          (resolve_dependencies (acc.reverse ++ t :: rest) t) now with
      | error e => rw [hcalc] at hn; simp at hn
      | ok nw =>
        rw [hcalc] at hn
        dsimp only at hn
        cases hconf : t.confidence_score with
        | none => rw [hconf] at hn; simp at hn
        | some old =>
          rw [hconf] at hn
          dsimp only at hn
          by_cases hupd : |old - nw| > 2
          · rw [if_pos hupd] at hn
            rcases hres : risk_loop now ({ t with confidence_score := some nw } :: acc) rest
              with ⟨rest', ns, more, err⟩
            rw [hres] at hn
            by_cases hemit : nw < low_confidence_threshold ∧ old ≥ low_confidence_threshold
            · rw [if_pos hemit] at hn
              simp only [List.cons_append, List.nil_append, List.mem_cons] at hn
              rcases hn with hn | hn
              · rw [hn]; rfl
              · have := ih ({ t with confidence_score := some nw } :: acc) n
                rw [hres] at this
                exact this hn
            · rw [if_neg hemit] at hn
              simp only [List.nil_append] at hn
              have := ih ({ t with confidence_score := some nw } :: acc) n
              rw [hres] at this
              exact this hn
          · rw [if_neg hupd] at hn
            rcases hres : risk_loop now (t :: acc) rest with ⟨rest', ns, more, err⟩
            rw [hres] at hn
            have := ih (t :: acc) n
            rw [hres] at this
            exact this hn
    · simp only [hact, if_false] at hn
      rcases hres : risk_loop now (t :: acc) rest with ⟨rest', ns, more, err⟩
      rw [hres] at hn
      have := ih (t :: acc) n
      rw [hres] at this
      exact this hn

/-- Claim C9 (amended): a planning cycle neither creates nor mutates any
notification (the notification table is returned exactly as it was), and a
risk cycle never mutates existing notifications but does append alert
notifications (one per task that newly drops below the low-confidence
threshold), contrary to the claim that scoring cycles create none; the
other creators are the escalation policy, the dispatcher, and the external
broadcast collaborator, as claimed. -/
theorem C9_amended (s : Store) (now : ℚ) :
    (planning_agent_run now s).notifications = s.notifications ∧
    ∃ new, (risk_agent_run now s).notifications = s.notifications ++ new ∧
      ∀ n ∈ new, n.type = "alert" := by
  constructor
  · rcases hpl : plan_loop s.tasks now s.tasks with ⟨tasks', audits, err⟩
    cases err with
    | none => simp [planning_agent_run, hpl, update_agent_success]
    | some msg =>
      simp only [planning_agent_run, hpl, update_agent_error]
      split <;> rfl
  · rcases hrk : risk_loop now [] s.tasks with ⟨tasks', notifs, audits, err⟩
    have halert : ∀ n ∈ notifs, n.type = "alert" := by
      intro n hn
      have := risk_loop_alerts now s.tasks [] n
      rw [hrk] at this
      exact this hn
    have hnew : ∀ n ∈ assign_ids s.next_notification_id notifs, n.type = "alert" := by
      intro n hn
      obtain ⟨m, hm, h1, _⟩ := assign_ids_fields _ _ n hn
      rw [h1]; exact halert m hm
    cases err with
    | none =>
      refine ⟨assign_ids s.next_notification_id notifs, ?_, hnew⟩
      simp [risk_agent_run, hrk, update_agent_success, append_notifications]
    | some msg =>
      by_cases hrec : (append_notifications
          { s with tasks := tasks', audit_logs := s.audit_logs ++ audits }
          notifs).agent_statuses.any (fun a => a.agent_name == "RiskAgent")
      · refine ⟨assign_ids s.next_notification_id notifs, ?_, hnew⟩
        simp only [risk_agent_run, hrk, update_agent_error, if_pos hrec]
        simp [append_notifications]
      · refine ⟨[], ?_, by intro n hn; simp at hn⟩
        simp only [risk_agent_run, hrk, update_agent_error, if_neg hrec]
        simp

/-- Claim C9 counterexample: a risk cycle on a store holding a single
pending critical overdue task with stored confidence 80 appends an alert
notification, refuting the claim that a scoring (risk) cycle creates no
notifications. -/
theorem C9_counterexample :
    (risk_agent_run 0 c9_store).notifications.length
      = c9_store.notifications.length + 1 := by
  simp [risk_agent_run, risk_loop, c9_store, c9_task, base_task, base_store,
    is_active_task, calculate_confidence_score, dependency_risk,
    resolve_dependencies, time_risk, priority_risk, status_risk,
    low_confidence_threshold, update_agent_success, update_agent_error,
    append_notifications, assign_ids, mk_risk_notification, mk_risk_audit]
  norm_num [Rat.floor_def]
  simp [assign_ids]

theorem plan_loop_split (all : List Task) (now : ℚ) (pre : List Task)
    (t : Task) (post : List Task)
    (hpre : ∀ u ∈ pre, ¬(is_active_task u = true ∧ u.priority_score = none))
    (hel : is_active_task t = true) (hnone : t.priority_score = none) :
    ∃ as, plan_loop all now (pre ++ t :: post) =
      (pre.map (fun u => (plan_task_step all now u).1) ++ t :: post, as,
        some none_minus_float_msg) := by
  induction pre with
  | nil =>
    refine ⟨[], ?_⟩
    rw [List.nil_append, plan_loop]
    simp [hel, hnone]
  | cons u pre ih =>
    obtain ⟨as, heq⟩ := ih fun x hx => hpre x (List.mem_cons_of_mem _ hx)
    have hu : ¬(is_active_task u = true ∧ u.priority_score = none) :=
      hpre u (List.mem_cons_self _ _)
    have hguard : (is_active_task u && u.priority_score.isNone) = false := by
      rcases hact : is_active_task u with _ | _
      · simp
      · rcases hps : u.priority_score with _ | v
        · exact absurd ⟨hact, hps⟩ hu
        · simp [hps]
    refine ⟨(plan_task_step all now u).2 ++ as, ?_⟩
    rw [List.cons_append, plan_loop]
    rw [hguard]
    simp only [Bool.false_eq_true, if_false]
    rw [heq]
    simp

theorem find_first_update (name : String) (f : AgentStatus → AgentStatus)
    (l : List AgentStatus) (hf : ∀ x, (f x).agent_name = x.agent_name) :
    (update_first_agent name f l).find? (fun a => a.agent_name == name)
      = (l.find? (fun a => a.agent_name == name)).map f := by
  induction l with
  | nil => rfl
  | cons a rest ih =>
    by_cases ha : (a.agent_name == name) = true
    · have hfa : ((f a).agent_name == name) = true := by rw [hf]; exact ha
      simp only [update_first_agent, if_pos ha, List.find?, hfa, ha]
      rfl
    · have ha' : (a.agent_name == name) = false := by
        rcases hb : (a.agent_name == name) with _ | _
        · rfl
        · exact absurd hb ha
      have hfa : ((f a).agent_name == name) = false := by rw [hf]; exact ha'
      simp only [update_first_agent, ha', Bool.false_eq_true, if_false,
        List.find?, hfa]
      exact ih

theorem any_of_find_eq_some {p : AgentStatus → Bool} {l : List AgentStatus}
    {a : AgentStatus} (h : l.find? p = some a) : l.any p = true :=
  List.any_eq_true.mpr ⟨a, List.mem_of_find?_eq_some h, List.find?_some h⟩

theorem any_eq_false_of_forall {α : Type} (p : α → Bool) (l : List α)
    (h : ∀ x ∈ l, p x = false) : l.any p = false := by
  induction l with
  | nil => rfl
  | cons a rest ih =>
    rw [List.any_cons]
    rw [h a (List.mem_cons_self _ _)]
    rw [ih fun x hx => h x (List.mem_cons_of_mem _ hx)]
    rfl

theorem any_agent_eq_false_of_find_none {p : AgentStatus → Bool}
    {l : List AgentStatus} (h : l.find? p = none) : l.any p = false :=
  any_eq_false_of_forall p l fun x hx => by
    simpa using List.find?_eq_none.mp h x hx

/-- Claim C1 (amended): when an agent cycle raises mid-loop, the run
swallows the exception (it returns normally to the scheduler) and what
happens to the store depends on whether the agent's health record exists.
With a record present, `errors_count` is incremented and `last_error` set
to the exception message — but the cycle's in-flight mutations are NOT
aborted: the error handler commits the session, so every entity mutated
before the failure point keeps its new state (for the planning cycle this
is proved via the exact failure position; for the risk and escalation
cycles via the failing loop's session).  With no record present, nothing is
committed and the store is left exactly as it was — and no error is
recorded anywhere.  The notification dispatcher shares the same handler,
but its cycle body performs no fallible operation, so its error path is
unreachable. -/
theorem C1_amended (now : ℚ) (s : Store) :
    (∀ pre t post a,
      s.tasks = pre ++ t :: post →
      (∀ u ∈ pre, ¬(is_active_task u = true ∧ u.priority_score = none)) →
      is_active_task t = true → t.priority_score = none →
      find_agent "PlanningAgent" s = some a →
      (planning_agent_run now s).tasks
        = pre.map (fun u => (plan_task_step s.tasks now u).1) ++ t :: post ∧
      find_agent "PlanningAgent" (planning_agent_run now s)
        = some { a with errors_count := a.errors_count + 1,
                        last_error := some none_minus_float_msg }) ∧
    (∀ pre t post,
      s.tasks = pre ++ t :: post →
      (∀ u ∈ pre, ¬(is_active_task u = true ∧ u.priority_score = none)) →
      is_active_task t = true → t.priority_score = none →
      find_agent "PlanningAgent" s = none →
      planning_agent_run now s = s) ∧
    (∀ ts' ns as msg,
      risk_loop now [] s.tasks = (ts', ns, as, some msg) →
      (∀ a, find_agent "RiskAgent" s = some a →
        (risk_agent_run now s).tasks = ts' ∧
        find_agent "RiskAgent" (risk_agent_run now s)
          = some { a with errors_count := a.errors_count + 1,
                          last_error := some msg }) ∧
      (find_agent "RiskAgent" s = none → risk_agent_run now s = s)) ∧
    (∀ ts' ns as msg,
      escalation_loop s.users now s.tasks = (ts', ns, as, some msg) →
      (∀ a, find_agent "EscalationAgent" s = some a →
        (escalation_agent_run now s).tasks = ts' ∧
        find_agent "EscalationAgent" (escalation_agent_run now s)
          = some { a with errors_count := a.errors_count + 1,
                          last_error := some msg }) ∧
      (find_agent "EscalationAgent" s = none →
        escalation_agent_run now s = s)) := by
  refine ⟨?_, ?_, ?_, ?_⟩
  · intro pre t post a hsplit hpre hel hnone hrec
    obtain ⟨as, heq⟩ := plan_loop_split s.tasks now pre t post hpre hel hnone
    have heq' : plan_loop s.tasks now s.tasks
        = (pre.map (fun u => (plan_task_step s.tasks now u).1) ++ t :: post, as,
            some none_minus_float_msg) := by
      rw [hsplit] at heq ⊢
      exact heq
    have hany : s.agent_statuses.any (fun x => x.agent_name == "PlanningAgent") = true :=
      any_of_find_eq_some hrec
    constructor
    · simp only [planning_agent_run, heq', update_agent_error]
      rw [if_pos hany]
    · have hstep := find_first_update "PlanningAgent"
        (fun x => { x with errors_count := x.errors_count + 1,
                           last_error := some none_minus_float_msg })
        s.agent_statuses (fun x => rfl)
      simp only [find_agent] at hrec ⊢
      simp only [planning_agent_run, heq', update_agent_error]
      rw [if_pos hany]
      show (update_first_agent "PlanningAgent" _ s.agent_statuses).find? _ = _
      rw [hstep, hrec]
      rfl
  · intro pre t post hsplit hpre hel hnone hrec
    obtain ⟨as, heq⟩ := plan_loop_split s.tasks now pre t post hpre hel hnone
    have heq' : plan_loop s.tasks now s.tasks
        = (pre.map (fun u => (plan_task_step s.tasks now u).1) ++ t :: post, as,
            some none_minus_float_msg) := by
      rw [hsplit] at heq ⊢
      exact heq
    have hany : s.agent_statuses.any (fun x => x.agent_name == "PlanningAgent") = false :=
      any_agent_eq_false_of_find_none (by simpa [find_agent] using hrec)
    simp only [planning_agent_run, heq', update_agent_error]
    rw [if_neg (by rw [hany]; exact Bool.false_ne_true)]
  · intro ts' ns as msg hloop
    constructor
    · intro a hrec
      have hany : s.agent_statuses.any (fun x => x.agent_name == "RiskAgent") = true :=
        any_of_find_eq_some hrec
      constructor
      · simp only [risk_agent_run, hloop, update_agent_error, append_notifications]
        rw [if_pos hany]
      · have hstep := find_first_update "RiskAgent"
          (fun x => { x with errors_count := x.errors_count + 1,
                             last_error := some msg })
          s.agent_statuses (fun x => rfl)
        simp only [find_agent] at hrec ⊢
        simp only [risk_agent_run, hloop, update_agent_error, append_notifications]
        rw [if_pos hany]
        show (update_first_agent "RiskAgent" _ s.agent_statuses).find? _ = _
        rw [hstep, hrec]
        rfl
    · intro hrec
      have hany : s.agent_statuses.any (fun x => x.agent_name == "RiskAgent") = false :=
        any_agent_eq_false_of_find_none (by simpa [find_agent] using hrec)
      simp only [risk_agent_run, hloop, update_agent_error, append_notifications]
      rw [if_neg (by rw [hany]; exact Bool.false_ne_true)]
  · intro ts' ns as msg hloop
    constructor
    · intro a hrec
      have hany : s.agent_statuses.any (fun x => x.agent_name == "EscalationAgent") = true :=
        any_of_find_eq_some hrec
      constructor
      · simp only [escalation_agent_run, hloop, update_agent_error, append_notifications]
        rw [if_pos hany]
      · have hstep := find_first_update "EscalationAgent"
          (fun x => { x with errors_count := x.errors_count + 1,
                             last_error := some msg })
          s.agent_statuses (fun x => rfl)
        simp only [find_agent] at hrec ⊢
        simp only [escalation_agent_run, hloop, update_agent_error, append_notifications]
        rw [if_pos hany]
        show (update_first_agent "EscalationAgent" _ s.agent_statuses).find? _ = _
        rw [hstep, hrec]
        rfl
    · intro hrec
      have hany : s.agent_statuses.any (fun x => x.agent_name == "EscalationAgent") = false :=
        any_agent_eq_false_of_find_none (by simpa [find_agent] using hrec)
      simp only [escalation_agent_run, hloop, update_agent_error, append_notifications]
      rw [if_neg (by rw [hany]; exact Bool.false_ne_true)]

/-- Claim C1 witness: the amended behaviour on concrete stores — the
planning cycle with and without a health record, and the risk and
escalation cycles failing on a NULL stored confidence score. -/
theorem C1_witness :
    ((planning_agent_run 0 c1_store).tasks
        = [c1_good_task].map (fun u => (plan_task_step c1_store.tasks 0 u).1)
            ++ c1_bad_task :: [] ∧
      find_agent "PlanningAgent" (planning_agent_run 0 c1_store)
        = some { c1_health with errors_count := c1_health.errors_count + 1, last_error := some none_minus_float_msg }) ∧
    planning_agent_run 0 c1_norec_store = c1_norec_store ∧
    ((risk_agent_run 0 c1r_store).tasks = [c1_conf_null_task] ∧
      find_agent "RiskAgent" (risk_agent_run 0 c1r_store)
        = some { c1r_health with errors_count := c1r_health.errors_count + 1, last_error := some none_minus_float_msg }) ∧
    ((escalation_agent_run 0 c1e_store).tasks = [c1_conf_null_task] ∧
      find_agent "EscalationAgent" (escalation_agent_run 0 c1e_store)
        = some { c1e_health with errors_count := c1e_health.errors_count + 1, last_error := some none_lt_float_msg }) := by
  have hpre1 : ∀ u ∈ [c1_good_task],
      ¬(is_active_task u = true ∧ u.priority_score = none) := by
    intro u hu
    simp only [List.mem_singleton] at hu
    subst hu
    simp [c1_good_task, base_task]
  have hrl : risk_loop 0 [] c1r_store.tasks
      = ([c1_conf_null_task], [], [], some none_minus_float_msg) := by
    show risk_loop 0 [] [c1_conf_null_task] = _
    rw [risk_loop]
    norm_num [is_active_task, c1_conf_null_task, base_task,
      resolve_dependencies, calculate_confidence_score, dependency_risk,
      time_risk, priority_risk, status_risk]
  have hes : escalation_loop c1e_store.users 0 c1e_store.tasks
      = ([c1_conf_null_task], [], [], some none_lt_float_msg) := by
    show escalation_loop [] 0 [c1_conf_null_task] = _
    rw [escalation_loop]
    simp [escalation_eligible, should_escalate, c1_conf_null_task, base_task]
  refine ⟨?_, ?_, ?_, ?_⟩
  · exact (C1_amended 0 c1_store).1 [c1_good_task] c1_bad_task [] c1_health
      rfl hpre1 (by decide) rfl rfl
  · exact (C1_amended 0 c1_norec_store).2.1 [c1_good_task] c1_bad_task []
      rfl hpre1 (by decide) rfl rfl
  · exact ((C1_amended 0 c1r_store).2.2.1 [c1_conf_null_task] [] []
      none_minus_float_msg hrl).1 c1r_health rfl
  · exact ((C1_amended 0 c1e_store).2.2.2 [c1_conf_null_task] [] []
      none_lt_float_msg hes).1 c1e_health rfl

/-- Claim C1 counterexample: on a store where the planning cycle fails at
the second task, the cycle's error is recorded (errors_count becomes 1),
yet the first task's freshly committed priority score shows the in-flight
mutation was not aborted — the stored scores changed, refuting the claim
that the store is left as if the cycle made no entity mutations. -/
theorem C1_counterexample :
    (planning_agent_run 0 c1_store).agent_statuses.map AgentStatus.errors_count = [1] ∧
    (planning_agent_run 0 c1_store).tasks.map Task.priority_score
      ≠ c1_store.tasks.map Task.priority_score := by
  have h1 : plan_loop [c1_good_task, c1_bad_task] 0 [c1_good_task, c1_bad_task]
      = ([{ c1_good_task with priority_score := some 95 }, c1_bad_task],
          [mk_planning_audit c1_good_task 50 95], some none_minus_float_msg) := by
    norm_num [plan_loop, is_active_task, plan_task_step, c1_good_task,
      c1_bad_task, base_task, calculate_priority_score, due_urgency,
      priority_weight, dependent_bonus, age_bonus, dependent_count]
  have hrun : planning_agent_run 0 c1_store
      = { users := [],
          tasks := [{ c1_good_task with priority_score := some 95 }, c1_bad_task],
          notifications := [],
          audit_logs := [mk_planning_audit c1_good_task 50 95],
          agent_statuses := [{ c1_health with errors_count := 1, last_error := some none_minus_float_msg }],
          next_notification_id := 0 } := by
    simp only [planning_agent_run, c1_store, base_store]
    rw [h1]
    simp [update_agent_error, update_first_agent, c1_health]
  constructor
  · rw [hrun]
    rfl
  · rw [hrun]
    simp [c1_store, base_store, c1_good_task, c1_bad_task, base_task]

/-- Claim C2: one escalation pass over a store holding a single task that is
five hours overdue, in progress, not yet escalated, with confidence 80, and
whose first active manager differs from the assignee, escalates the task to
that manager, creates exactly two notifications and appends exactly one
audit entry with action `task_escalated`. -/
theorem C2_theorem (now d : ℚ) (s : Store) (t : Task) (m : User)
    (hs : s.tasks = [t])
    (hst : t.status = TaskStatus.in_progress)
    (hesc : t.is_escalated = false)
    (hdue : t.due_date = some d)
    (hd : d = now - 5 * 3600)
    (hconf : t.confidence_score = some 80)
    (hm : find_manager_to_escalate_to s.users = some m)
    (hassign : t.assigned_to ≠ m.id) :
    (∃ t', (escalation_agent_run now s).tasks = [t']
       ∧ t'.status = TaskStatus.escalated
       ∧ t'.is_escalated = true
       ∧ t'.escalated_to = some m.id) ∧
    (escalation_agent_run now s).notifications.length
      = s.notifications.length + 2 ∧
    ((escalation_agent_run now s).audit_logs.filter
        (fun a => a.action == "task_escalated")).length
      = (s.audit_logs.filter (fun a => a.action == "task_escalated")).length
          + 1 := by
  have h5 : d < now := by rw [hd]; linarith
  have hpos : (now - d) / 3600 > escalation_threshold_hours := by
    rw [hd]
    norm_num [escalation_threshold_hours]
  obtain ⟨r, hr⟩ : ∃ r, should_escalate t now = .ok (true, some r) := by
    unfold should_escalate
    simp only [hesc, Bool.false_eq_true, if_false, hst, hdue]
    simp only [if_pos h5, if_pos hpos]
    simp
  have helig : escalation_eligible t = true := by
    simp [escalation_eligible, hesc, hst]
  have hloop : escalation_loop s.users now [t]
      = ([{ t with is_escalated := true, escalated_to := some m.id, status := TaskStatus.escalated }],
         mk_escalation_notifications t r m, [mk_escalation_audit t r m],
         none) := by
    rw [escalation_loop]
    simp only [helig, if_true, hr, hm, escalate_task, Option.getD]
    rw [escalation_loop]
    simp
  have hrun : escalation_agent_run now s
      = update_agent_success "EscalationAgent" now
          (([t] : List Task).filter escalation_eligible).length
          (append_notifications
            { s with tasks := [{ t with is_escalated := true, escalated_to := some m.id, status := TaskStatus.escalated }],
                     audit_logs := s.audit_logs ++ [mk_escalation_audit t r m] }
            (mk_escalation_notifications t r m)) := by
    unfold escalation_agent_run
    rw [hs, hloop]
  refine ⟨⟨{ t with is_escalated := true, escalated_to := some m.id, status := TaskStatus.escalated }, ?_, rfl, rfl, rfl⟩, ?_, ?_⟩
  · rw [hrun]
    rfl
  · rw [hrun]
    simp only [update_agent_success, append_notifications]
    simp [assign_ids_length, mk_escalation_notifications, hassign]
  · rw [hrun]
    simp only [update_agent_success, append_notifications]
    simp [List.filter_append, mk_escalation_audit]

/-- Claim C2 witness: the scenario instantiated at the epoch with a task
due at -18000 seconds, assignee 1 and manager 5. -/
theorem C2_witness :
    (∃ t', (escalation_agent_run 0 c2_store).tasks = [t']
       ∧ t'.status = TaskStatus.escalated
       ∧ t'.is_escalated = true
       ∧ t'.escalated_to = some c2_manager.id) ∧
    (escalation_agent_run 0 c2_store).notifications.length
      = c2_store.notifications.length + 2 ∧
    ((escalation_agent_run 0 c2_store).audit_logs.filter
        (fun a => a.action == "task_escalated")).length
      = (c2_store.audit_logs.filter (fun a => a.action == "task_escalated")).length
          + 1 :=
  C2_theorem 0 (-18000) c2_store c2_task c2_manager rfl rfl rfl rfl
    (by norm_num) rfl (by decide) (by decide)

theorem eligible_not_escalated {t : Task} (h : escalation_eligible t = true) :
    t.is_escalated = false := by
  simp only [escalation_eligible, Bool.and_eq_true, Bool.not_eq_true'] at h
  exact h.1

theorem mem_mk_escalation_notifications (t : Task) (r : String) (m : User) :
    ∀ n ∈ mk_escalation_notifications t r m, n.task_id = some t.id := by
  intro n hn
  unfold mk_escalation_notifications at hn
  simp only [List.mem_cons] at hn
  rcases hn with hn | hn
  · rw [hn]
  · split at hn
    · simp only [List.mem_singleton] at hn
      rw [hn]
    · simp at hn

theorem escalation_loop_frame (users : List User) (now : ℚ) (ts : List Task) :
    (escalation_loop users now ts).1.map Task.id = ts.map Task.id ∧
    (∀ x ∈ ts, x.is_escalated = true → x ∈ (escalation_loop users now ts).1) ∧
    (∀ n ∈ (escalation_loop users now ts).2.1,
      ∃ u ∈ ts, escalation_eligible u = true ∧ n.task_id = some u.id) ∧
    (∀ a ∈ (escalation_loop users now ts).2.2.1,
      ∃ u ∈ ts, escalation_eligible u = true ∧ a.entity_id = some u.id) := by
  induction ts with
  | nil => simp [escalation_loop]
  | cons t rest ih =>
    rcases hrec : escalation_loop users now rest with ⟨rest', ns', more', err'⟩
    rw [hrec] at ih
    obtain ⟨ih1, ih2, ih3, ih4⟩ := ih
    rw [escalation_loop]
    by_cases helig : escalation_eligible t = true
    · simp only [helig, if_true]
      cases hse : should_escalate t now with
      | error e =>
        refine ⟨rfl, fun x hx _ => hx, ?_, ?_⟩ <;> simp
      | ok res =>
        rcases res with ⟨cond, reason⟩
        cases cond with
        | false =>
          simp only [Bool.false_eq_true, if_false, hrec]
          refine ⟨?_, ?_, ?_, ?_⟩
          · simp [ih1]
          · intro x hx hxe
            rcases List.mem_cons.mp hx with hx | hx
            · rw [hx]; exact List.mem_cons_self _ _
            · exact List.mem_cons_of_mem _ (ih2 x hx hxe)
          · intro n hn
            obtain ⟨u, hu, h1, h2⟩ := ih3 n hn
            exact ⟨u, List.mem_cons_of_mem _ hu, h1, h2⟩
          · intro a ha
            obtain ⟨u, hu, h1, h2⟩ := ih4 a ha
            exact ⟨u, List.mem_cons_of_mem _ hu, h1, h2⟩
        | true =>
          cases hm : find_manager_to_escalate_to users with
          | none =>
            simp only [hm, hrec]
            refine ⟨?_, ?_, ?_, ?_⟩
            · simp [ih1]
            · intro x hx hxe
              rcases List.mem_cons.mp hx with hx | hx
              · rw [hx]; exact List.mem_cons_self _ _
              · exact List.mem_cons_of_mem _ (ih2 x hx hxe)
            · intro n hn
              obtain ⟨u, hu, h1, h2⟩ := ih3 n hn
              exact ⟨u, List.mem_cons_of_mem _ hu, h1, h2⟩
            · intro a ha
              obtain ⟨u, hu, h1, h2⟩ := ih4 a ha
              exact ⟨u, List.mem_cons_of_mem _ hu, h1, h2⟩
          | some m =>
            simp only [hm, hrec, escalate_task]
            refine ⟨?_, ?_, ?_, ?_⟩
            · simp [ih1]
            · intro x hx hxe
              rcases List.mem_cons.mp hx with hx | hx
              · exfalso
                have := eligible_not_escalated helig
                rw [hx] at hxe
                rw [hxe] at this
                cases this
              · exact List.mem_cons_of_mem _ (ih2 x hx hxe)
            · intro n hn
              rcases List.mem_append.mp hn with hn | hn
              · exact ⟨t, List.mem_cons_self _ _, helig,
                  mem_mk_escalation_notifications t _ m n hn⟩
              · obtain ⟨u, hu, h1, h2⟩ := ih3 n hn
                exact ⟨u, List.mem_cons_of_mem _ hu, h1, h2⟩
            · intro a ha
              rcases List.mem_cons.mp ha with ha | ha
              · exact ⟨t, List.mem_cons_self _ _, helig, by rw [ha]; rfl⟩
              · obtain ⟨u, hu, h1, h2⟩ := ih4 a ha
                exact ⟨u, List.mem_cons_of_mem _ hu, h1, h2⟩
    · simp only [Bool.not_eq_true] at helig
      simp only [helig, Bool.false_eq_true, if_false, hrec]
      refine ⟨?_, ?_, ?_, ?_⟩
      · simp [ih1]
      · intro x hx hxe
        rcases List.mem_cons.mp hx with hx | hx
        · rw [hx]; exact List.mem_cons_self _ _
        · exact List.mem_cons_of_mem _ (ih2 x hx hxe)
      · intro n hn
        obtain ⟨u, hu, h1, h2⟩ := ih3 n hn
        exact ⟨u, List.mem_cons_of_mem _ hu, h1, h2⟩
      · intro a ha
        obtain ⟨u, hu, h1, h2⟩ := ih4 a ha
        exact ⟨u, List.mem_cons_of_mem _ hu, h1, h2⟩

theorem filter_eq_nil_of_forall {α : Type} (p : α → Bool) (l : List α)
    (h : ∀ x ∈ l, p x = false) : l.filter p = [] := by
  induction l with
  | nil => rfl
  | cons a rest ih =>
    rw [List.filter_cons]
    rw [h a (List.mem_cons_self _ _)]
    exact ih fun x hx => h x (List.mem_cons_of_mem _ hx)

theorem escalation_run_frame (now : ℚ) (s : Store) (t : Task)
    (hnd : (s.tasks.map Task.id).Nodup) (ht : t ∈ s.tasks)
    (hesc : t.is_escalated = true) :
    t ∈ (escalation_agent_run now s).tasks ∧
    (escalation_agent_run now s).tasks.map Task.id = s.tasks.map Task.id ∧
    (escalation_agent_run now s).notifications.filter
        (fun n => n.task_id == some t.id)
      = s.notifications.filter (fun n => n.task_id == some t.id) ∧
    (escalation_agent_run now s).audit_logs.filter
        (fun a => a.entity_id == some t.id)
      = s.audit_logs.filter (fun a => a.entity_id == some t.id) := by
  rcases hloop : escalation_loop s.users now s.tasks with ⟨ts', ns, as, err⟩
  have hfr := escalation_loop_frame s.users now s.tasks
  rw [hloop] at hfr
  obtain ⟨hf1, hf2, hf3, hf4⟩ := hfr
  have hid : ∀ (u : Task), u ∈ s.tasks → escalation_eligible u = true
      → ¬(u.id = t.id) := by
    intro u hu helig heq
    have huv : u = t := List.inj_on_of_nodup_map hnd hu ht heq
    have hne := eligible_not_escalated helig
    rw [huv, hesc] at hne
    cases hne
  have hns : ∀ n ∈ assign_ids s.next_notification_id ns,
      (n.task_id == some t.id) = false := by
    intro n hn
    obtain ⟨m0, hm0, _, h2⟩ := assign_ids_fields _ _ n hn
    obtain ⟨u, hu, helig, h3⟩ := hf3 m0 hm0
    rw [h2, h3, beq_eq_false_iff_ne]
    simp only [ne_eq, Option.some.injEq]
    exact hid u hu helig
  have has : ∀ a ∈ as, (a.entity_id == some t.id) = false := by
    intro a ha
    obtain ⟨u, hu, helig, h3⟩ := hf4 a ha
    rw [h3, beq_eq_false_iff_ne]
    simp only [ne_eq, Option.some.injEq]
    exact hid u hu helig
  have hmem : t ∈ ts' := hf2 t ht hesc
  cases err with
  | none =>
    simp only [escalation_agent_run, hloop, update_agent_success,
      append_notifications]
    refine ⟨hmem, hf1, ?_, ?_⟩
    · rw [List.filter_append, filter_eq_nil_of_forall _ _ hns,
        List.append_nil]
    · rw [List.filter_append, filter_eq_nil_of_forall _ _ has,
        List.append_nil]
  | some msg =>
    simp only [escalation_agent_run, hloop, update_agent_error,
      append_notifications]
    split
    · refine ⟨hmem, hf1, ?_, ?_⟩
      · rw [List.filter_append, filter_eq_nil_of_forall _ _ hns,
          List.append_nil]
      · rw [List.filter_append, filter_eq_nil_of_forall _ _ has,
          List.append_nil]
    · exact ⟨ht, rfl, rfl, rfl⟩

/-- Claim C4: a task whose `is_escalated` flag is set is never touched again
by the escalation policy — over any sequence of passes, the task row is
unchanged (it is filtered out of the eligible set and `should_escalate`
returns early), no notification referencing it is created, and no audit
entry referencing it is appended.  Task ids are assumed pairwise distinct,
as the store's primary key guarantees. -/
theorem C4_theorem (s : Store) (t : Task) (nows : List ℚ)
    (hnd : (s.tasks.map Task.id).Nodup) (ht : t ∈ s.tasks)
    (hesc : t.is_escalated = true) :
    t ∈ (nows.foldl (fun st nw => escalation_agent_run nw st) s).tasks ∧
    (nows.foldl (fun st nw => escalation_agent_run nw st) s).notifications.filter
        (fun n => n.task_id == some t.id)
      = s.notifications.filter (fun n => n.task_id == some t.id) ∧
    (nows.foldl (fun st nw => escalation_agent_run nw st) s).audit_logs.filter
        (fun a => a.entity_id == some t.id)
      = s.audit_logs.filter (fun a => a.entity_id == some t.id) := by
  induction nows generalizing s with
  | nil => exact ⟨ht, rfl, rfl⟩
  | cons nw nows ih =>
    obtain ⟨h1, h2, h3, h4⟩ := escalation_run_frame nw s t hnd ht hesc
    have hnd' : ((escalation_agent_run nw s).tasks.map Task.id).Nodup := by
      rw [h2]; exact hnd
    obtain ⟨g1, g2, g3⟩ := ih (escalation_agent_run nw s) hnd' h1
    simp only [List.foldl_cons]
    refine ⟨g1, ?_, ?_⟩
    · rw [g2, h3]
    · rw [g3, h4]

/-- Claim C4 witness: two escalation passes over a store holding an already
escalated task (beside an active one) leave the escalated task unchanged
and create nothing referencing it. -/
theorem C4_witness :
    c4_task ∈ (([0, 3600] : List ℚ).foldl
        (fun st nw => escalation_agent_run nw st) c4_store).tasks ∧
    (([0, 3600] : List ℚ).foldl (fun st nw => escalation_agent_run nw st)
          c4_store).notifications.filter
        (fun n => n.task_id == some c4_task.id)
      = c4_store.notifications.filter (fun n => n.task_id == some c4_task.id) ∧
    (([0, 3600] : List ℚ).foldl (fun st nw => escalation_agent_run nw st)
          c4_store).audit_logs.filter
        (fun a => a.entity_id == some c4_task.id)
      = c4_store.audit_logs.filter (fun a => a.entity_id == some c4_task.id) :=
  C4_theorem c4_store c4_task [0, 3600] (by decide) (by decide) rfl

theorem create_reminder_props (t : Task) (due : ℚ) (h : ℕ)
    (ex : List Notification) (n : Notification)
    (hc : create_reminder t due h ex = some n) :
    n.type = "reminder" ∧ n.status = NotificationStatus.pending
      ∧ n.retry_count = 0 ∧ n.max_retries = 3 ∧ n.task_id = some t.id
      ∧ n.scheduled_at = some (due - (h : ℚ) * 3600) := by
  unfold create_reminder at hc
  split at hc
  · cases hc
  · rw [Option.some.injEq] at hc
    rw [← hc]
    exact ⟨rfl, rfl, rfl, rfl, rfl, rfl⟩

theorem schedule_offsets_extends (t : Task) (due now : ℚ) (hs : List ℕ) :
    ∀ st c, ∃ ext,
      (schedule_offsets t due now hs (st, c)).1.notifications
        = st.notifications ++ ext ∧
      (∀ n ∈ ext, n.type = "reminder" ∧ n.status = NotificationStatus.pending
        ∧ n.retry_count = 0 ∧ n.max_retries = 3 ∧ n.task_id = some t.id) ∧
      (schedule_offsets t due now hs (st, c)).1.tasks = st.tasks ∧
      (schedule_offsets t due now hs (st, c)).1.audit_logs = st.audit_logs ∧
      (schedule_offsets t due now hs (st, c)).1.agent_statuses
        = st.agent_statuses := by
  induction hs with
  | nil => intro st c; exact ⟨[], by simp [schedule_offsets], by simp, rfl, rfl, rfl⟩
  | cons h rest ih =>
    intro st c
    rw [schedule_offsets]
    dsimp only
    split
    · cases hc : create_reminder t due h st.notifications with
      | none => exact ih st c
      | some n =>
        obtain ⟨p1, p2, p3, p4, p5, _⟩ := create_reminder_props t due h _ n hc
        obtain ⟨ext, he1, he2, he3, he4, he5⟩ :=
          ih (append_notifications st [n]) (c + 1)
        refine ⟨{ n with id := st.next_notification_id } :: ext, ?_, ?_, ?_, ?_, ?_⟩
        · rw [he1]
          simp [append_notifications, assign_ids]
        · intro x hx
          rcases List.mem_cons.mp hx with hx | hx
          · rw [hx]
            exact ⟨p1, p2, p3, p4, p5⟩
          · exact he2 x hx
        · rw [he3]; rfl
        · rw [he4]; rfl
        · rw [he5]; rfl
    · exact ih st c

theorem schedule_tasks_extends (now : ℚ) (ts : List Task) :
    ∀ st c, ∃ ext,
      (schedule_tasks now ts (st, c)).1.notifications
        = st.notifications ++ ext ∧
      (∀ n ∈ ext, n.type = "reminder" ∧ n.status = NotificationStatus.pending
        ∧ n.retry_count = 0 ∧ n.max_retries = 3
        ∧ ∃ u ∈ ts, n.task_id = some u.id) ∧
      (schedule_tasks now ts (st, c)).1.tasks = st.tasks ∧
      (schedule_tasks now ts (st, c)).1.audit_logs = st.audit_logs ∧
      (schedule_tasks now ts (st, c)).1.agent_statuses = st.agent_statuses := by
  induction ts with
  | nil => intro st c; exact ⟨[], by simp [schedule_tasks], by simp, rfl, rfl, rfl⟩
  | cons t rest ih =>
    intro st c
    rw [schedule_tasks]
    cases hd : t.due_date with
    | none =>
      obtain ⟨ext, g1, g2, g3, g4, g5⟩ := ih st c
      refine ⟨ext, g1, ?_, g3, g4, g5⟩
      intro x hx
      obtain ⟨q1, q2, q3, q4, u, hu, hq⟩ := g2 x hx
      exact ⟨q1, q2, q3, q4, u, List.mem_cons_of_mem _ hu, hq⟩
    | some due =>
      dsimp only
      rcases hstep : schedule_task_reminders t due now (st, c) with ⟨st', c'⟩
      obtain ⟨ext1, h1, h2, h3, h4, h5⟩ := schedule_offsets_extends t due now
        reminder_hours st c
      have e : schedule_offsets t due now reminder_hours (st, c) = (st', c') := hstep
      rw [e] at h1 h3 h4 h5
      obtain ⟨ext2, g1, g2, g3, g4, g5⟩ := ih st' c'
      refine ⟨ext1 ++ ext2, ?_, ?_, ?_, ?_, ?_⟩
      · rw [g1, h1, List.append_assoc]
      · intro x hx
        rcases List.mem_append.mp hx with hx | hx
        · obtain ⟨q1, q2, q3, q4, q5⟩ := h2 x hx
          exact ⟨q1, q2, q3, q4, t, List.mem_cons_self _ _, q5⟩
        · obtain ⟨q1, q2, q3, q4, u, hu, hq⟩ := g2 x hx
          exact ⟨q1, q2, q3, q4, u, List.mem_cons_of_mem _ hu, hq⟩
      · rw [g3, h3]
      · rw [g4, h4]
      · rw [g5, h5]

theorem schedule_extends (now : ℚ) (s : Store) :
    ∃ ext,
      (schedule_upcoming_reminders now s).1.notifications
        = s.notifications ++ ext ∧
      (∀ n ∈ ext, n.type = "reminder" ∧ n.status = NotificationStatus.pending
        ∧ n.retry_count = 0 ∧ n.max_retries = 3
        ∧ ∃ u ∈ s.tasks, n.task_id = some u.id) ∧
      (schedule_upcoming_reminders now s).1.tasks = s.tasks ∧
      (schedule_upcoming_reminders now s).1.audit_logs = s.audit_logs ∧
      (schedule_upcoming_reminders now s).1.agent_statuses
        = s.agent_statuses := by
  obtain ⟨ext, h1, h2, h3, h4, h5⟩ :=
    schedule_tasks_extends now (s.tasks.filter (reminder_query now)) s 0
  refine ⟨ext, h1, ?_, h3, h4, h5⟩
  intro x hx
  obtain ⟨q1, q2, q3, q4, u, hu, hq⟩ := h2 x hx
  exact ⟨q1, q2, q3, q4, u, List.mem_of_mem_filter hu, hq⟩

theorem notification_run_shape (now : ℚ) (s : Store) :
    ∃ ext,
      (notification_agent_run now s).notifications
        = (s.notifications ++ ext).map
            (fun n => retry_notification_step now (send_notification_step now n)) ∧
      (∀ n ∈ ext, n.type = "reminder" ∧ n.status = NotificationStatus.pending
        ∧ n.retry_count = 0 ∧ n.max_retries = 3) := by
  obtain ⟨ext, h1, h2, _, _, _⟩ := schedule_extends now s
  refine ⟨ext, ?_, fun n hn => ⟨(h2 n hn).1, (h2 n hn).2.1,
    (h2 n hn).2.2.1, (h2 n hn).2.2.2.1⟩⟩
  rcases hs1 : schedule_upcoming_reminders now s with ⟨s1, scheduled⟩
  rw [hs1] at h1
  simp only [notification_agent_run, hs1, process_scheduled_notifications,
    retry_failed_notifications, update_agent_success]
  rw [h1]
  rw [List.map_map]
  rfl

theorem send_step_fields (now : ℚ) (n : Notification) :
    (send_notification_step now n).retry_count = n.retry_count ∧
    (send_notification_step now n).max_retries = n.max_retries := by
  unfold send_notification_step
  split <;> exact ⟨rfl, rfl⟩

theorem retry_step_fields (now : ℚ) (n : Notification) :
    (retry_notification_step now n).retry_count = n.retry_count ∧
    (retry_notification_step now n).max_retries = n.max_retries := by
  unfold retry_notification_step
  split <;> exact ⟨rfl, rfl⟩

theorem send_step_of_not_pending (now : ℚ) (n : Notification)
    (h : n.status ≠ NotificationStatus.pending) :
    send_notification_step now n = n := by
  unfold send_notification_step
  rw [if_neg]
  intro hc
  simp only [due_pending, Bool.and_eq_true, beq_iff_eq] at hc
  exact h hc.1

theorem retry_step_of_not_selected (now : ℚ) (n : Notification)
    (h : retry_selected n = false) : retry_notification_step now n = n := by
  unfold retry_notification_step
  rw [h]
  rfl

theorem due_pending_true_of (now : ℚ) (n : Notification)
    (hst : n.status = NotificationStatus.pending) (ts : ℚ)
    (hsch : n.scheduled_at = some ts) (hle : ts ≤ now) :
    due_pending now n = true := by
  simp [due_pending, hst, hsch, hle]

theorem retry_selected_true_of (n : Notification)
    (hst : n.status = NotificationStatus.failed)
    (hlt : n.retry_count < n.max_retries) : retry_selected n = true := by
  simp [retry_selected, hst, hlt]

/-- Claim C10: in the dispatcher as implemented the simulated send cannot
fail.  In one cycle every pending notification scheduled at or before now
becomes sent, every failed notification with retries left becomes sent in
the retry pass, and the failure branches are unreachable: a notification is
failed after the cycle only if it entered the cycle already failed with its
retries exhausted (so `pending -> failed` and the retry-increment /
permanent-failure paths never execute), and no notification's retry counter
or cap is ever changed. -/
theorem C10_theorem (s : Store) (now : ℚ) :
    (∀ n ∈ s.notifications, n.status = NotificationStatus.pending →
      ∀ ts, n.scheduled_at = some ts → ts ≤ now →
        { n with status := NotificationStatus.sent, sent_at := some now }
          ∈ (notification_agent_run now s).notifications) ∧
    (∀ n ∈ s.notifications, n.status = NotificationStatus.failed →
      n.retry_count < n.max_retries →
        { n with status := NotificationStatus.sent, sent_at := some now }
          ∈ (notification_agent_run now s).notifications) ∧
    (∀ n' ∈ (notification_agent_run now s).notifications,
      n'.status = NotificationStatus.failed →
        n' ∈ s.notifications ∧ ¬(n'.retry_count < n'.max_retries)) ∧
    (∀ n ∈ s.notifications,
      ∃ n' ∈ (notification_agent_run now s).notifications,
        n'.retry_count = n.retry_count ∧ n'.max_retries = n.max_retries) := by
  obtain ⟨ext, hshape, hext⟩ := notification_run_shape now s
  refine ⟨?_, ?_, ?_, ?_⟩
  · intro n hn hst ts hsch hle
    have hdp := due_pending_true_of now n hst ts hsch hle
    have hsend : send_notification_step now n
        = { n with status := NotificationStatus.sent, sent_at := some now } := by
      unfold send_notification_step
      rw [if_pos hdp]
    have hretry : retry_notification_step now
        { n with status := NotificationStatus.sent, sent_at := some now }
        = { n with status := NotificationStatus.sent, sent_at := some now } := by
      apply retry_step_of_not_selected
      simp [retry_selected]
    rw [hshape]
    have hmem : n ∈ s.notifications ++ ext := List.mem_append_left _ hn
    have := List.mem_map_of_mem
      (fun n => retry_notification_step now (send_notification_step now n)) hmem
    dsimp only at this
    rw [hsend, hretry] at this
    exact this
  · intro n hn hst hlt
    have hsend : send_notification_step now n = n := by
      apply send_step_of_not_pending
      rw [hst]
      intro hc
      cases hc
    have hretry : retry_notification_step now n
        = { n with status := NotificationStatus.sent, sent_at := some now } := by
      unfold retry_notification_step
      rw [if_pos (retry_selected_true_of n hst hlt)]
    rw [hshape]
    have hmem : n ∈ s.notifications ++ ext := List.mem_append_left _ hn
    have := List.mem_map_of_mem
      (fun n => retry_notification_step now (send_notification_step now n)) hmem
    dsimp only at this
    rw [hsend, hretry] at this
    exact this
  · intro n' hn' hst
    rw [hshape] at hn'
    obtain ⟨x, hx, hgx⟩ := List.mem_map.mp hn'
    by_cases hdp : due_pending now x = true
    · exfalso
      have hsend : send_notification_step now x
          = { x with status := NotificationStatus.sent, sent_at := some now } := by
        unfold send_notification_step
        rw [if_pos hdp]
      have hretry : retry_notification_step now
          { x with status := NotificationStatus.sent, sent_at := some now }
          = { x with status := NotificationStatus.sent, sent_at := some now } := by
        apply retry_step_of_not_selected
        simp [retry_selected]
      rw [hsend, hretry] at hgx
      rw [← hgx] at hst
      cases hst
    · have hsend : send_notification_step now x = x := by
        unfold send_notification_step
        rw [if_neg (by simpa using hdp)]
      by_cases hrs : retry_selected x = true
      · exfalso
        have hretry : retry_notification_step now x
            = { x with status := NotificationStatus.sent, sent_at := some now } := by
          unfold retry_notification_step
          rw [if_pos hrs]
        rw [hsend, hretry] at hgx
        rw [← hgx] at hst
        cases hst
      · have hrs' : retry_selected x = false := by simpa using hrs
        have hretry := retry_step_of_not_selected now x hrs'
        rw [hsend, hretry] at hgx
        rw [← hgx] at hst ⊢
        rcases List.mem_append.mp hx with hx | hx
        · refine ⟨hx, ?_⟩
          intro hlt
          have := retry_selected_true_of x hst hlt
          rw [this] at hrs'
          cases hrs'
        · exfalso
          have := (hext x hx).2.1
          rw [hst] at this
          cases this
  · intro n hn
    rw [hshape]
    refine ⟨retry_notification_step now (send_notification_step now n),
      List.mem_map_of_mem _ (List.mem_append_left _ hn), ?_, ?_⟩
    · rw [(retry_step_fields now _).1, (send_step_fields now n).1]
    · rw [(retry_step_fields now _).2, (send_step_fields now n).2]

/-- Claim C10 witness: on a concrete store, a pending notification
scheduled in the past and a failed notification with retries left both
reach the sent state in one cycle. -/
theorem C10_witness :
    { c10_pending_notification with status := NotificationStatus.sent, sent_at := some 0 }
      ∈ (notification_agent_run 0 c10_store).notifications ∧
    { c10_failed_notification with status := NotificationStatus.sent, sent_at := some 0 }
      ∈ (notification_agent_run 0 c10_store).notifications := by
  have h := C10_theorem c10_store 0
  constructor
  · exact h.1 c10_pending_notification (by decide) rfl (-10) rfl (by decide)
  · exact h.2.1 c10_failed_notification (by decide) rfl (by decide)

theorem notification_run_cap (now : ℚ) (s : Store)
    (hinv : ∀ n ∈ s.notifications, n.retry_count ≤ n.max_retries) :
    (∀ n' ∈ (notification_agent_run now s).notifications,
      n'.retry_count ≤ n'.max_retries) ∧
    (∀ n ∈ s.notifications, n.status = NotificationStatus.failed →
      n.retry_count = n.max_retries →
        n ∈ (notification_agent_run now s).notifications) := by
  obtain ⟨ext, hshape, hext⟩ := notification_run_shape now s
  constructor
  · intro n' hn'
    rw [hshape] at hn'
    obtain ⟨x, hx, hgx⟩ := List.mem_map.mp hn'
    have hfields : n'.retry_count = x.retry_count ∧ n'.max_retries = x.max_retries := by
      rw [← hgx]
      exact ⟨by rw [(retry_step_fields now _).1, (send_step_fields now x).1],
             by rw [(retry_step_fields now _).2, (send_step_fields now x).2]⟩
    rw [hfields.1, hfields.2]
    rcases List.mem_append.mp hx with hx | hx
    · exact hinv x hx
    · obtain ⟨_, _, h3, h4⟩ := hext x hx
      rw [h3, h4]
      norm_num
  · intro n hn hst hcap
    have hsend : send_notification_step now n = n := by
      apply send_step_of_not_pending
      rw [hst]
      intro hc
      cases hc
    have hrs : retry_selected n = false := by
      simp [retry_selected, hst, hcap]
    have hretry := retry_step_of_not_selected now n hrs
    rw [hshape]
    have hmem : n ∈ s.notifications ++ ext := List.mem_append_left _ hn
    have := List.mem_map_of_mem
      (fun n => retry_notification_step now (send_notification_step now n)) hmem
    dsimp only at this
    rw [hsend, hretry] at this
    exact this

/-- Claim C3: if every notification's retry counter is within its cap, the
invariant is preserved by any sequence of dispatcher cycles (no cycle ever
changes a retry counter, and freshly scheduled reminders start at 0 of 3),
and a notification that is failed with its counter at the cap is left in
the store unchanged by every further cycle: the terminal failed state has
no outgoing transitions. -/
theorem C3_theorem (s : Store) (nows : List ℚ)
    (hinv : ∀ n ∈ s.notifications, n.retry_count ≤ n.max_retries) :
    (∀ n ∈ (nows.foldl (fun st nw => notification_agent_run nw st) s).notifications,
      n.retry_count ≤ n.max_retries) ∧
    (∀ n ∈ s.notifications, n.status = NotificationStatus.failed →
      n.retry_count = n.max_retries →
        n ∈ (nows.foldl (fun st nw => notification_agent_run nw st) s).notifications) := by
  induction nows generalizing s with
  | nil => exact ⟨hinv, fun n hn _ _ => hn⟩
  | cons nw nows ih =>
    obtain ⟨h1, h2⟩ := notification_run_cap nw s hinv
    obtain ⟨g1, g2⟩ := ih (notification_agent_run nw s) h1
    simp only [List.foldl_cons]
    exact ⟨g1, fun n hn hst hcap => g2 n (h2 n hn hst hcap) hst hcap⟩

/-- Claim C3 witness: a failed notification at its retry cap survives two
dispatcher cycles unchanged, and the cap invariant holds throughout. -/
theorem C3_witness :
    (∀ n ∈ (([0, 120] : List ℚ).foldl
        (fun st nw => notification_agent_run nw st) c3_store).notifications,
      n.retry_count ≤ n.max_retries) ∧
    c3_capped_notification ∈ (([0, 120] : List ℚ).foldl
        (fun st nw => notification_agent_run nw st) c3_store).notifications := by
  have h := C3_theorem c3_store [0, 120] (by decide)
  exact ⟨h.1, h.2 c3_capped_notification (by decide) rfl rfl⟩

theorem contains_sub_append_left (p l₁ l₂ : List Char)
    (hp : contains_sub p l₂ = true) : contains_sub p (l₁ ++ l₂) = true := by
  induction l₁ with
  | nil => exact hp
  | cons c l₁ ih =>
    rw [List.cons_append, contains_sub, ih]
    rw [Bool.or_true]

theorem pre_append_cancel (a b c : List Char) :
    List.isPrefixOf (a ++ b) (a ++ c) = List.isPrefixOf b c := by
  induction a with
  | nil => rfl
  | cons x a ih =>
    rw [List.cons_append, List.cons_append, List.isPrefixOf]
    rw [ih]
    simp

theorem contains_sub_of_pre (p l : List Char)
    (h : List.isPrefixOf p l = true) : contains_sub p l = true := by
  cases l with
  | nil =>
    cases p with
    | nil => rfl
    | cons c rest => cases h
  | cons c rest =>
    rw [contains_sub, h]
    rfl

theorem reminder_record_contains (t : Task) (due : ℚ) (h : ℕ) :
    str_contains (reminder_record t due h).message (reminder_pattern h)
      = true := by
  unfold str_contains reminder_record reminder_pattern
  simp only [String.data_append, List.append_assoc]
  apply contains_sub_append_left
  apply contains_sub_append_left
  apply contains_sub_append_left
  apply contains_sub_append_left
  apply contains_sub_of_pre
  rw [pre_append_cancel]
  decide

theorem hours_le_iff (x H : ℚ) : (x / 3600 ≤ H) ↔ x ≤ 3600 * H := by
  rw [div_le_iff₀ (by norm_num : (0:ℚ) < 3600)]
  constructor <;> intro <;> linarith

theorem hours_gt_iff (x H : ℚ) : (x / 3600 > H) ↔ 3600 * H < x := by
  rw [gt_iff_lt, lt_div_iff₀ (by norm_num : (0:ℚ) < 3600)]
  constructor <;> intro <;> linarith

theorem create_reminder_none (t : Task) (due : ℚ) (h : ℕ)
    (ex : List Notification) (hany : ex.any (reminder_dup t h) = true) :
    create_reminder t due h ex = none := by
  unfold create_reminder
  rw [hany]
  rfl

theorem create_reminder_some (t : Task) (due : ℚ) (h : ℕ)
    (ex : List Notification) (hany : ex.any (reminder_dup t h) = false) :
    create_reminder t due h ex = some (reminder_record t due h) := by
  unfold create_reminder
  rw [hany]
  rfl

theorem schedule_offsets_skip (t : Task) (d now : ℚ) (hs_list : List ℕ)
    (hnone : ∀ h' ∈ hs_list,
      ¬((d - now) / 3600 ≤ (h' : ℚ) ∧ (d - now) / 3600 > (h' : ℚ) - 1)) :
    ∀ acc, schedule_offsets t d now hs_list acc = acc := by
  induction hs_list with
  | nil => intro acc; rfl
  | cons h₀ rest ih =>
    intro acc
    rw [schedule_offsets]
    try dsimp only
    rw [if_neg (hnone h₀ (List.mem_cons_self _ _))]
    exact ih (fun x hx => hnone x (List.mem_cons_of_mem _ hx)) acc

theorem schedule_offsets_unique (t : Task) (d now : ℚ) (h : ℕ)
    (hb : (d - now) / 3600 ≤ (h : ℚ) ∧ (d - now) / 3600 > (h : ℚ) - 1)
    (hs_list : List ℕ) :
    ∀ st c,
      h ∈ hs_list →
      (∀ h' ∈ hs_list, h' ≠ h →
        ¬((d - now) / 3600 ≤ (h' : ℚ) ∧ (d - now) / 3600 > (h' : ℚ) - 1)) →
      hs_list.Nodup →
      schedule_offsets t d now hs_list (st, c)
        = (match create_reminder t d h st.notifications with
           | some n => (append_notifications st [n], c + 1)
           | none => (st, c)) := by
  induction hs_list with
  | nil => intro st c hmem; cases hmem
  | cons h₀ rest ih =>
    intro st c hmem hothers hnd
    by_cases he : h₀ = h
    · subst he
      rw [schedule_offsets]
      dsimp only
      rw [if_pos hb]
      have hrest : ∀ h' ∈ rest,
          ¬((d - now) / 3600 ≤ (h' : ℚ) ∧ (d - now) / 3600 > (h' : ℚ) - 1) := by
        intro h' hh'
        have hne : h' ≠ h₀ := by
          intro hc
          rw [hc] at hh'
          exact (List.nodup_cons.mp hnd).1 hh'
        exact hothers h' (List.mem_cons_of_mem _ hh') hne
      cases hc : create_reminder t d h₀ st.notifications with
      | some n =>
        dsimp only
        rw [schedule_offsets_skip t d now rest hrest]
      | none =>
        dsimp only
        rw [schedule_offsets_skip t d now rest hrest]
    · have hmem' : h ∈ rest := by
        rcases List.mem_cons.mp hmem with hc | hc
        · exact absurd hc.symm he
        · exact hc
      rw [schedule_offsets]
      dsimp only
      rw [if_neg (hothers h₀ (List.mem_cons_self _ _) he)]
      exact ih st c hmem'
        (fun x hx hne => hothers x (List.mem_cons_of_mem _ hx) hne)
        (List.nodup_cons.mp hnd).2

theorem buckets_disjoint (x : ℚ) (h h' : ℕ) (hm : h ∈ reminder_hours)
    (hm' : h' ∈ reminder_hours) (hne : h' ≠ h)
    (hb : x ≤ (h : ℚ) ∧ x > (h : ℚ) - 1) :
    ¬(x ≤ (h' : ℚ) ∧ x > (h' : ℚ) - 1) := by
  obtain ⟨hb1, hb2⟩ := hb
  intro hc
  obtain ⟨hc1, hc2⟩ := hc
  fin_cases hm <;> fin_cases hm' <;>
    first
      | exact hne rfl
      | (push_cast at hb1 hb2 hc1 hc2; linarith)

theorem reminder_query_of_bucket (t : Task) (d now : ℚ) (h : ℕ)
    (hact : is_active_task t = true) (hdue : t.due_date = some d)
    (hmem : h ∈ reminder_hours)
    (hb : (d - now) / 3600 ≤ (h : ℚ) ∧ (d - now) / 3600 > (h : ℚ) - 1) :
    reminder_query now t = true := by
  have h2 : (1 : ℚ) ≤ (h : ℚ) - 1 := by fin_cases hmem <;> norm_num
  have h24 : (h : ℚ) ≤ 24 := by fin_cases hmem <;> norm_num
  have hlow : 3600 * ((h : ℚ) - 1) < d - now := (hours_gt_iff _ _).mp hb.2
  have hhigh : d - now ≤ 3600 * (h : ℚ) := (hours_le_iff _ _).mp hb.1
  have hwin : (reminder_window_hours : ℚ) = 25 := by norm_num [reminder_window_hours, reminder_hours]
  unfold reminder_query
  rw [hact, hdue]
  have hlt : now < d := by nlinarith
  have hle : d ≤ now + (reminder_window_hours : ℚ) * 3600 := by
    rw [hwin]; nlinarith
  simp [hlt, hle]

theorem schedule_pass (s : Store) (t : Task) (d now : ℚ) (h : ℕ)
    (hs : s.tasks = [t]) (hact : is_active_task t = true)
    (hdue : t.due_date = some d) (hmem : h ∈ reminder_hours)
    (hb : (d - now) / 3600 ≤ (h : ℚ) ∧ (d - now) / 3600 > (h : ℚ) - 1) :
    schedule_upcoming_reminders now s
      = (match create_reminder t d h s.notifications with
         | some n => (append_notifications s [n], 1)
         | none => (s, 0)) := by
  have hqt := reminder_query_of_bucket t d now h hact hdue hmem hb
  unfold schedule_upcoming_reminders
  rw [hs]
  rw [show List.filter (reminder_query now) [t] = [t] by simp [hqt]]
  rw [schedule_tasks]
  rw [hdue]
  dsimp only
  rw [schedule_tasks]
  unfold schedule_task_reminders
  rw [schedule_offsets_unique t d now h hb reminder_hours s 0 hmem
    (fun h' hm' hne => buckets_disjoint _ h h' hmem hm' hne hb)
    (by decide)]

theorem ids_ne_of_nodup_split {pre post : List Task} {t : Task}
    (hnd : ((pre ++ t :: post).map Task.id).Nodup) :
    ∀ u, u ∈ pre ∨ u ∈ post → u.id ≠ t.id := by
  rw [List.map_append, List.map_cons] at hnd
  intro u hu heq
  rcases hu with hu | hu
  · have hdisj := List.disjoint_of_nodup_append hnd
    exact hdisj (by rw [← heq]; exact List.mem_map_of_mem Task.id hu)
      (List.mem_cons_self _ _)
  · have hnd2 := hnd.of_append_right
    exact (List.nodup_cons.mp hnd2).1
      (by rw [← heq]; exact List.mem_map_of_mem Task.id hu)

theorem dup_false_of_other_id (t : Task) (h : ℕ) (n : Notification)
    (u : Task) (hq : n.task_id = some u.id) (hne : u.id ≠ t.id) :
    reminder_dup t h n = false := by
  unfold reminder_dup
  rw [hq]
  have hbe : (some u.id == some t.id) = false := by
    rw [beq_eq_false_iff_ne]
    simp only [ne_eq, Option.some.injEq]
    exact hne
  rw [hbe]
  rfl

theorem dup_reminder_record (t : Task) (d : ℚ) (h k : ℕ) :
    reminder_dup t h { reminder_record t d h with id := k } = true := by
  unfold reminder_dup
  have h1 : ({ reminder_record t d h with id := k } : Notification).task_id
      = some t.id := rfl
  have h2 : ({ reminder_record t d h with id := k } : Notification).type
      = "reminder" := rfl
  have h3 : ({ reminder_record t d h with id := k } : Notification).message
      = (reminder_record t d h).message := rfl
  rw [h1, h2, h3, reminder_record_contains]
  simp

theorem schedule_tasks_append (now : ℚ) (l₁ l₂ : List Task) :
    ∀ acc, schedule_tasks now (l₁ ++ l₂) acc
      = schedule_tasks now l₂ (schedule_tasks now l₁ acc) := by
  induction l₁ with
  | nil => intro acc; rfl
  | cons u l₁ ih =>
    intro acc
    rw [List.cons_append]
    cases hd : u.due_date with
    | none =>
      rw [schedule_tasks, hd]
      dsimp only
      rw [ih]
      congr 1
      rw [schedule_tasks, hd]
    | some du =>
      rw [schedule_tasks, hd]
      dsimp only
      rw [ih]
      congr 1
      rw [schedule_tasks, hd]

/-- Claim C5 (amended): in one reminder-scheduling pass, for every task
with status pending or in_progress (task ids pairwise distinct, as the
primary key guarantees) and for each offset h in {24, 8, 2}, a reminder
scheduled at due - h hours is created only when the hours-until-due lie in
the one-hour bucket (h - 1, h] — not for every offset with the task merely
inside the lookahead window — and only when no notification matching the
dedup filter for that task/offset exists; after the pass exactly one
notification in the store matches the pair's dedup filter, and scheduling
a second pass leaves exactly that one (the second pass finds it by its
message and creates nothing), regardless of what the pass does for the
store's other tasks. -/
theorem C5_amended (s : Store) (t : Task) (d now : ℚ) (h : ℕ)
    (hnd : (s.tasks.map Task.id).Nodup)
    (ht : t ∈ s.tasks) (hact : is_active_task t = true)
    (hdue : t.due_date = some d) (hmem : h ∈ reminder_hours)
    (hb : (d - now) / 3600 ≤ (h : ℚ) ∧ (d - now) / 3600 > (h : ℚ) - 1)
    (hnoex : ∀ n ∈ s.notifications, reminder_dup t h n = false) :
    ∃ r, (schedule_upcoming_reminders now s).1.notifications.filter
        (reminder_dup t h) = [r]
      ∧ r.type = "reminder" ∧ r.task_id = some t.id
      ∧ r.scheduled_at = some (d - (h : ℚ) * 3600)
      ∧ (schedule_upcoming_reminders now
            (schedule_upcoming_reminders now s).1).1.notifications.filter
          (reminder_dup t h) = [r] := by
  have hqt := reminder_query_of_bucket t d now h hact hdue hmem hb
  have htL : t ∈ s.tasks.filter (reminder_query now) :=
    List.mem_filter.mpr ⟨ht, hqt⟩
  obtain ⟨pre, post, hL⟩ := List.append_of_mem htL
  have hndL : ((s.tasks.filter (reminder_query now)).map Task.id).Nodup :=
    hnd.sublist (List.Sublist.map Task.id (List.filter_sublist s.tasks))
  rw [hL] at hndL
  have hother : ∀ u, u ∈ pre ∨ u ∈ post → u.id ≠ t.id :=
    ids_ne_of_nodup_split hndL
  -- first pass: the walk over the tasks before t
  rcases hP1 : schedule_tasks now pre (s, 0) with ⟨st1, c1⟩
  obtain ⟨ext1, e1, e2, e3, _, _⟩ := schedule_tasks_extends now pre s 0
  rw [hP1] at e1 e3
  have hIst1 : ∀ n ∈ st1.notifications, reminder_dup t h n = false := by
    intro n hn
    rw [e1] at hn
    rcases List.mem_append.mp hn with hn | hn
    · exact hnoex n hn
    · obtain ⟨_, _, _, _, u, hu, hq⟩ := e2 n hn
      exact dup_false_of_other_id t h n u hq (hother u (Or.inl hu))
  have hanyt : st1.notifications.any (reminder_dup t h) = false :=
    any_eq_false_of_forall _ _ hIst1
  -- first pass: the offset walk at t creates the reminder
  have hstep : schedule_task_reminders t d now (st1, c1)
      = (append_notifications st1 [reminder_record t d h], c1 + 1) := by
    unfold schedule_task_reminders
    rw [schedule_offsets_unique t d now h hb reminder_hours st1 c1 hmem
      (fun h' hm' hne => buckets_disjoint _ h h' hmem hm' hne hb) (by decide)]
    rw [create_reminder_some t d h st1.notifications hanyt]
  -- first pass: the walk over the tasks after t
  rcases hP2 : schedule_tasks now post
      (append_notifications st1 [reminder_record t d h], c1 + 1) with ⟨st3, c3⟩
  obtain ⟨ext2, f1, f2, f3, _, _⟩ := schedule_tasks_extends now post
    (append_notifications st1 [reminder_record t d h]) (c1 + 1)
  rw [hP2] at f1 f3
  have hpass1 : schedule_upcoming_reminders now s = (st3, c3) := by
    unfold schedule_upcoming_reminders
    rw [hL, schedule_tasks_append, hP1, schedule_tasks, hdue]
    dsimp only
    rw [hstep, hP2]
  have happ : (append_notifications st1 [reminder_record t d h]).notifications
      = st1.notifications
          ++ [{ reminder_record t d h with id := st1.next_notification_id }] := rfl
  have hdupr : reminder_dup t h
      { reminder_record t d h with id := st1.next_notification_id } = true :=
    dup_reminder_record t d h st1.next_notification_id
  have hnil2 : ext2.filter (reminder_dup t h) = [] := by
    apply filter_eq_nil_of_forall
    intro x hx
    obtain ⟨_, _, _, _, u, hu, hq⟩ := f2 x hx
    exact dup_false_of_other_id t h x u hq (hother u (Or.inr hu))
  have hfil3 : st3.notifications.filter (reminder_dup t h)
      = [{ reminder_record t d h with id := st1.next_notification_id }] := by
    rw [f1, happ, List.filter_append, List.filter_append]
    rw [filter_eq_nil_of_forall _ _ hIst1, hnil2]
    simp [List.filter_cons, hdupr]
  -- second pass
  have htasks3 : st3.tasks = s.tasks := by
    rw [f3]
    rw [show (append_notifications st1 [reminder_record t d h]).tasks
        = st1.tasks from rfl]
    exact e3
  rcases hQ1 : schedule_tasks now pre (st3, 0) with ⟨st4, c4⟩
  obtain ⟨ext1q, k1, k2, _, _, _⟩ := schedule_tasks_extends now pre st3 0
  rw [hQ1] at k1
  have hmemr : ({ reminder_record t d h with id := st1.next_notification_id }
      : Notification) ∈ st4.notifications := by
    rw [k1]
    apply List.mem_append_left
    rw [f1, happ]
    apply List.mem_append_left
    exact List.mem_append_right _ (List.mem_singleton.mpr rfl)
  have hanyt2 : st4.notifications.any (reminder_dup t h) = true :=
    List.any_eq_true.mpr ⟨_, hmemr, hdupr⟩
  have hstep2 : schedule_task_reminders t d now (st4, c4) = (st4, c4) := by
    unfold schedule_task_reminders
    rw [schedule_offsets_unique t d now h hb reminder_hours st4 c4 hmem
      (fun h' hm' hne => buckets_disjoint _ h h' hmem hm' hne hb) (by decide)]
    rw [create_reminder_none t d h st4.notifications hanyt2]
  rcases hQ2 : schedule_tasks now post (st4, c4) with ⟨st5, c5⟩
  obtain ⟨ext2q, m1, m2, _, _, _⟩ := schedule_tasks_extends now post st4 c4
  rw [hQ2] at m1
  have hpass2 : schedule_upcoming_reminders now st3 = (st5, c5) := by
    unfold schedule_upcoming_reminders
    rw [htasks3, hL, schedule_tasks_append, hQ1, schedule_tasks, hdue]
    dsimp only
    rw [hstep2, hQ2]
  have hnil1q : ext1q.filter (reminder_dup t h) = [] := by
    apply filter_eq_nil_of_forall
    intro x hx
    obtain ⟨_, _, _, _, u, hu, hq⟩ := k2 x hx
    exact dup_false_of_other_id t h x u hq (hother u (Or.inl hu))
  have hnil2q : ext2q.filter (reminder_dup t h) = [] := by
    apply filter_eq_nil_of_forall
    intro x hx
    obtain ⟨_, _, _, _, u, hu, hq⟩ := m2 x hx
    exact dup_false_of_other_id t h x u hq (hother u (Or.inr hu))
  have hfil5 : st5.notifications.filter (reminder_dup t h)
      = [{ reminder_record t d h with id := st1.next_notification_id }] := by
    rw [m1, k1, List.filter_append, List.filter_append]
    rw [hfil3, hnil1q, hnil2q]
    simp
  refine ⟨{ reminder_record t d h with id := st1.next_notification_id },
    ?_, rfl, rfl, rfl, ?_⟩
  · rw [hpass1]
    exact hfil3
  · rw [hpass1]
    dsimp only
    rw [hpass2]
    exact hfil5

/-- Claim C5 witness: a pending task due in 23.5 hours gets exactly one
24-hour reminder, and a second scheduling pass adds nothing. -/
theorem C5_witness :
    ∃ r, (schedule_upcoming_reminders 0 c5w_store).1.notifications.filter
        (reminder_dup c5w_task 24) = [r]
      ∧ r.type = "reminder" ∧ r.task_id = some c5w_task.id
      ∧ r.scheduled_at = some (84600 - (24 : ℚ) * 3600)
      ∧ (schedule_upcoming_reminders 0
            (schedule_upcoming_reminders 0 c5w_store).1).1.notifications.filter
          (reminder_dup c5w_task 24) = [r] :=
  C5_amended c5w_store c5w_task 84600 0 24 (by decide) (by decide) (by decide)
    rfl (by decide) (by norm_num)
    (by intro n hn; simp [c5w_store, base_store] at hn)

/-- Claim C5 counterexample: a pending task due in 5 hours lies inside the
lookahead window (now, now + 25h], so the claim demands a reminder for each
offset in {24, 8, 2}; the pass creates none, because 5 hours matches none
of the one-hour buckets (23, 24], (7, 8], (1, 2] the code actually uses. -/
theorem C5_counterexample :
    (schedule_upcoming_reminders 0 c5_store).1.notifications = [] ∧
    (schedule_upcoming_reminders 0 c5_store).2 = 0 := by
  have hnone : ∀ h' ∈ reminder_hours,
      ¬(((18000 : ℚ) - 0) / 3600 ≤ (h' : ℚ)
        ∧ ((18000 : ℚ) - 0) / 3600 > (h' : ℚ) - 1) := by
    intro h' hm
    fin_cases hm <;> push_cast <;> norm_num
  have hq : c5_store.tasks.filter (reminder_query 0) = [c5_task] := by
    have : reminder_query 0 c5_task = true := by
      simp [reminder_query, c5_task, base_task, is_active_task,
        reminder_window_hours, reminder_hours]
      norm_num
    simp [c5_store, base_store, this]
  unfold schedule_upcoming_reminders
  rw [hq]
  rw [schedule_tasks]
  rw [show c5_task.due_date = some 18000 from rfl]
  dsimp only
  rw [schedule_tasks]
  unfold schedule_task_reminders
  rw [schedule_offsets_skip c5_task 18000 0 reminder_hours hnone]
  exact ⟨rfl, rfl⟩

/-- Claim C9 witness: the amended statement instantiated at the concrete
store of the counterexample. -/
theorem C9_witness :
    (planning_agent_run 0 c9_store).notifications = c9_store.notifications ∧
    ∃ new, (risk_agent_run 0 c9_store).notifications
        = c9_store.notifications ++ new ∧ ∀ n ∈ new, n.type = "alert" :=
  C9_amended c9_store 0

end Backend
